import Mathlib

/-!
Verification of the MySQL RA-TLS launcher
(`examples/mysql-ratls/files/mysql_ratls_launcher.c`).

The development shallowly embeds the launcher's configuration resolver,
port negotiator, identity store, seed-list builder, whitelist merger and
the bootstrap pipeline.  C strings are modelled as `List Nat` byte lists
(or Lean `String`s where the code only moves whole words around), machine
integers as `Nat`/`Int` with explicit `% 2^32` where overflow matters,
and `exit(1)` as an `Except` error value.
-/

/-! ### C `atoi`

Model of C `atoi`: skip `isspace` characters, optional sign, then the
maximal leading digit run; returns 0 when no digits.  (Machine-int
overflow is not modelled; all values of interest fit in an `int`.) -/

def isSpaceC (c : Char) : Bool :=
  c = ' ' || c = '\t' || c = '\n' || c = '\x0b' || c = '\x0c' || c = '\r'

def atoiDigits : List Char → Nat → Nat
  | [], acc => acc
  | c :: cs, acc =>
    if c.isDigit then atoiDigits cs (acc * 10 + (c.toNat - 48)) else acc

def atoi (s : String) : Int :=
  let t := s.data.dropWhile isSpaceC
  match t with
  | '-' :: rest => - (atoiDigits rest 0 : Int)
  | '+' :: rest => (atoiDigits rest 0 : Int)
  | _ => (atoiDigits t 0 : Int)

/-! ### Configuration resolver (`parse_args`, lines 1225-1482)

`struct launcher_config` with the fields the launcher parses.  `NULL`
char pointers are `none`.  The `mysql_argv` pass-through vector collects
unrecognized tokens. -/

structure LauncherConfig where
  contract_address : Option String := none
  rpc_url : Option String := none
  whitelist_config : Option String := none
  cert_path : Option String := none
  key_path : Option String := none
  data_dir : Option String := none
  ra_tls_cert_algorithm : Option String := none
  ratls_enable_verify : Option String := none
  ratls_require_peer_cert : Option String := none
  ra_tls_allow_outdated_tcb : Option String := none
  ra_tls_allow_hw_config_needed : Option String := none
  ra_tls_allow_sw_hardening_needed : Option String := none
  gr_group_name : Option String := none
  gr_seeds : Option String := none
  gr_local_address : Option String := none
  gr_bootstrap : Bool := false
  gr_debug : Bool := false
  gr_port : Int := 33061
  gr_port_specified : Bool := false
  mysql_port : Int := 0
  mysql_port_specified : Bool := false
  dry_run : Bool := false
  test_lan_ip : Option String := none
  test_output_dir : Option String := none
  gcs_debug_trace_path : Option String := none
  mysql_argv : List String := []
deriving Repr, DecidableEq

/-- Command-line parsing state: the config plus the `cli_*` booleans
`parse_args` keeps to decide whether an env override warrants a warning. -/
structure ParseSt where
  cfg : LauncherConfig := {}
  cliGrPort : Bool := false
  cliMysqlPort : Bool := false
  cliGrBootstrap : Bool := false
  cliGrDebug : Bool := false
  cliDryRun : Bool := false
deriving Repr, DecidableEq

/-- Kernel-computable `String.startsWith` (byte positions in core's
version do not reduce): prefix test on the character lists. -/
def strStartsWith (s p : String) : Bool := p.data.isPrefixOf s.data

/-- Kernel-computable `String.drop`. -/
def strDrop (s : String) (n : Nat) : String := String.mk (s.data.drop n)

/-- ASCII `tolower` of one character (C locale). -/
def charLower (c : Char) : Char :=
  if 'A' ≤ c ∧ c ≤ 'Z' then Char.ofNat (c.toNat + 32) else c

/-- Kernel-computable ASCII lowercase of a string (`strcasecmp`). -/
def strLower (s : String) : String := String.mk (s.data.map charLower)

/-- `strcmp(val, "1") == 0 || strcasecmp(val, "true") == 0`. -/
def boolVal (v : String) : Bool :=
  v = "1" || strLower v = "true"

/-- Outcome of matching one argv token against a `PARSE_OPTION` name. -/
inductive OptMatch where
  | withVal (v : String)
  | bare
  | noMatch
deriving Repr, DecidableEq

/-- `PARSE_OPTION` token match: `--opt=value` yields the value, an exact
`--opt` expects the value in the next argv slot. -/
def matchOpt (nm arg : String) : OptMatch :=
  if strStartsWith arg (nm ++ "=") then .withVal (strDrop arg (nm.length + 1))
  else if arg = nm then .bare
  else .noMatch

/-- The `PARSE_OPTION` branches of the `parse_args` else-if chain, in
source order, each with the config field it assigns.  (The option names
are pairwise distinct, so matching the table in order is equivalent to
the source's interleaved else-if chain.) -/
def strOptTable : List (String × (LauncherConfig → String → LauncherConfig)) :=
  [ ("--contract-address", fun c v => { c with contract_address := some v })
  , ("--rpc-url", fun c v => { c with rpc_url := some v })
  , ("--cert-path", fun c v => { c with cert_path := some v })
  , ("--ra-tls-cert-algorithm", fun c v => { c with ra_tls_cert_algorithm := some v })
  , ("--ratls-enable-verify", fun c v => { c with ratls_enable_verify := some v })
  , ("--ratls-require-peer-cert", fun c v => { c with ratls_require_peer_cert := some v })
  , ("--ra-tls-allow-outdated-tcb", fun c v => { c with ra_tls_allow_outdated_tcb := some v })
  , ("--ra-tls-allow-hw-config-needed", fun c v => { c with ra_tls_allow_hw_config_needed := some v })
  , ("--ra-tls-allow-sw-hardening-needed", fun c v => { c with ra_tls_allow_sw_hardening_needed := some v })
  , ("--gr-group-name", fun c v => { c with gr_group_name := some v })
  , ("--gr-seeds", fun c v => { c with gr_seeds := some v })
  , ("--gr-local-address", fun c v => { c with gr_local_address := some v })
  , ("--test-lan-ip", fun c v => { c with test_lan_ip := some v })
  , ("--test-output-dir", fun c v => { c with test_output_dir := some v })
  , ("--gcs-debug-trace-path", fun c v => { c with gcs_debug_trace_path := some v }) ]

/-- First `PARSE_OPTION` branch matching `arg`, with the payload of a
`--opt=value` form when present. -/
def matchStrOpt (arg : String) :
    List (String × (LauncherConfig → String → LauncherConfig)) →
    Option ((LauncherConfig → String → LauncherConfig) × Option String)
  | [] => none
  | (nm, set) :: tbl =>
    match matchOpt nm arg with
    | .withVal v => some (set, some v)
    | .bare => some (set, none)
    | .noMatch => matchStrOpt arg tbl

/-- Result of processing one argv token: continue with an updated state
(and whether the following token was consumed as this option's value), or
exit with a code. -/
inductive StepRes where
  | cont (st : ParseSt) (consumedNext : Bool)
  | halt (e : Int)
deriving Repr

/-- One iteration of the `parse_args` command-line loop (lines 1280-1383):
dispatch `arg` through the else-if chain, looking ahead at the next argv
token for `--opt value` forms.  A `--opt value` form consumes the next
token only when it exists and does not start with `-` (C checks
`argv[i+1][0] != '-'`, which an empty next token also passes); a bare
value option otherwise just prints a warning, while a bare `--gr-port` or
`--mysql-port` exits with status 1. -/
def cliStep (st : ParseSt) (arg : String) (next : Option String) : StepRes :=
  match matchStrOpt arg strOptTable with
  | some (set, some v) => .cont { st with cfg := set st.cfg v } false
  | some (set, none) =>
    match next with
    | some v =>
      if ¬ strStartsWith v "-" then .cont { st with cfg := set st.cfg v } true
      else .cont st false
    | none => .cont st false
  | none =>
    if arg = "--gr-bootstrap" then
      .cont { st with cfg := { st.cfg with gr_bootstrap := true }, cliGrBootstrap := true } false
    else if strStartsWith arg "--gr-bootstrap=" then
      .cont { st with cfg := { st.cfg with gr_bootstrap := boolVal (strDrop arg 15) },
                      cliGrBootstrap := true } false
    else if arg = "--gr-debug" then
      .cont { st with cfg := { st.cfg with gr_debug := true }, cliGrDebug := true } false
    else if strStartsWith arg "--gr-debug=" then
      .cont { st with cfg := { st.cfg with gr_debug := boolVal (strDrop arg 11) },
                      cliGrDebug := true } false
    else if strStartsWith arg "--gr-port=" then
      let p := atoi (strDrop arg 10)
      if p ≤ 0 ∨ 65535 < p then .halt 1
      else .cont { st with cfg := { st.cfg with gr_port := p, gr_port_specified := true },
                           cliGrPort := true } false
    else if arg = "--gr-port" then
      match next with
      | some v =>
        if ¬ strStartsWith v "-" then
          let p := atoi v
          if p ≤ 0 ∨ 65535 < p then .halt 1
          else .cont { st with cfg := { st.cfg with gr_port := p, gr_port_specified := true },
                               cliGrPort := true } true
        else .halt 1
      | none => .halt 1
    else if strStartsWith arg "--mysql-port=" then
      let p := atoi (strDrop arg 13)
      if p ≤ 0 ∨ 65535 < p then .halt 1
      else .cont { st with cfg := { st.cfg with mysql_port := p, mysql_port_specified := true },
                           cliMysqlPort := true } false
    else if arg = "--mysql-port" then
      match next with
      | some v =>
        if ¬ strStartsWith v "-" then
          let p := atoi v
          if p ≤ 0 ∨ 65535 < p then .halt 1
          else .cont { st with cfg := { st.cfg with mysql_port := p, mysql_port_specified := true },
                               cliMysqlPort := true } true
        else .halt 1
      | none => .halt 1
    else if arg = "--dry-run" then
      .cont { st with cfg := { st.cfg with dry_run := true }, cliDryRun := true } false
    else if strStartsWith arg "--dry-run=" then
      .cont { st with cfg := { st.cfg with dry_run := boolVal (strDrop arg 10) },
                      cliDryRun := true } false
    else if arg = "--help" ∨ arg = "-h" then .halt 0
    else .cont { st with cfg := { st.cfg with mysql_argv := st.cfg.mysql_argv ++ [arg] } } false

/-- STEP 1 of `parse_args`: the command-line loop over argv. -/
def cliLoop : ParseSt → List String → Except Int ParseSt
  | st, [] => .ok st
  | st, [arg] =>
    match cliStep st arg none with
    | .halt e => .error e
    | .cont st2 _ => .ok st2
  | st, arg :: v :: rest =>
    match cliStep st arg (some v) with
    | .halt e => .error e
    | .cont st2 true => cliLoop st2 rest
    | .cont st2 false => cliLoop st2 (v :: rest)

/-! ### STEP 2 of `parse_args`: environment overrides (lines 1387-1470)

Each `APPLY_ENV_VAR*` macro touches exactly one field, so the sequence is
rendered field-wise; the warnings are collected (as the overriding env var
names) in the source's emission order. -/

/-- Process environment: `getenv`. -/
def Env : Type := String → Option String

/-- `APPLY_ENV_VAR`: a non-empty env value replaces the current value. -/
def resolveStr (env : Env) (nm : String) (cur : Option String) : Option String :=
  match env nm with
  | none => cur
  | some v => if v = "" then cur else some v

/-- Warning emitted by `APPLY_ENV_VAR` when a non-empty env value overrides
a command-line-set (non-NULL) value. -/
def warnStr (env : Env) (nm : String) (cur : Option String) : List String :=
  match env nm with
  | none => []
  | some v => if v = "" then [] else if cur.isSome then [nm] else []

/-- `APPLY_ENV_VAR_INT`: a non-empty env value is applied only when
`0 < atoi v ≤ 65535`; otherwise it is silently ignored. Returns the new
(value, specified-flag) pair. -/
def resolveInt (env : Env) (nm : String) (cur : Int) (spec : Bool) : Int × Bool :=
  match env nm with
  | none => (cur, spec)
  | some v =>
    if v = "" then (cur, spec)
    else if 0 < atoi v ∧ atoi v ≤ 65535 then (atoi v, true) else (cur, spec)

/-- Warning emitted by `APPLY_ENV_VAR_INT` (only when the env value is in
range and the option was set on the command line). -/
def warnInt (env : Env) (nm : String) (cliSet : Bool) : List String :=
  match env nm with
  | none => []
  | some v =>
    if v = "" then []
    else if 0 < atoi v ∧ atoi v ≤ 65535 then (if cliSet then [nm] else []) else []

/-- `APPLY_ENV_VAR_BOOL`: a non-empty env value always replaces the flag. -/
def resolveBool (env : Env) (nm : String) (cur : Bool) : Bool :=
  match env nm with
  | none => cur
  | some v => if v = "" then cur else boolVal v

/-- Warning emitted by `APPLY_ENV_VAR_BOOL` (only when the value changes a
command-line-set flag). -/
def warnBool (env : Env) (nm : String) (cur : Bool) (cliSet : Bool) : List String :=
  match env nm with
  | none => []
  | some v =>
    if v = "" then []
    else if cliSet ∧ cur ≠ boolVal v then [nm] else []

/-- Resolver output: the final configuration and the override warnings. -/
structure Resolved where
  cfg : LauncherConfig
  warnings : List String
deriving Repr, DecidableEq

/-- Environment-application phase of `parse_args` (lines 1429-1466).
`RA_TLS_WHITELIST_CONFIG`, `RA_TLS_KEY_PATH` and `MYSQL_DATA_DIR` are
assigned directly from `getenv`, never from arguments (security). -/
def applyEnv (env : Env) (st : ParseSt) : Resolved where
  cfg :=
    { contract_address := resolveStr env "CONTRACT_ADDRESS" st.cfg.contract_address
      rpc_url := resolveStr env "RPC_URL" st.cfg.rpc_url
      whitelist_config := env "RA_TLS_WHITELIST_CONFIG"
      cert_path := resolveStr env "RA_TLS_CERT_PATH" st.cfg.cert_path
      key_path := env "RA_TLS_KEY_PATH"
      data_dir := env "MYSQL_DATA_DIR"
      ra_tls_cert_algorithm := resolveStr env "RA_TLS_CERT_ALGORITHM" st.cfg.ra_tls_cert_algorithm
      ratls_enable_verify := resolveStr env "RA_TLS_ENABLE_VERIFY" st.cfg.ratls_enable_verify
      ratls_require_peer_cert :=
        resolveStr env "RA_TLS_REQUIRE_PEER_CERT" st.cfg.ratls_require_peer_cert
      ra_tls_allow_outdated_tcb :=
        resolveStr env "RA_TLS_ALLOW_OUTDATED_TCB_INSECURE" st.cfg.ra_tls_allow_outdated_tcb
      ra_tls_allow_hw_config_needed :=
        resolveStr env "RA_TLS_ALLOW_HW_CONFIG_NEEDED" st.cfg.ra_tls_allow_hw_config_needed
      ra_tls_allow_sw_hardening_needed :=
        resolveStr env "RA_TLS_ALLOW_SW_HARDENING_NEEDED" st.cfg.ra_tls_allow_sw_hardening_needed
      gr_group_name := resolveStr env "MYSQL_GR_GROUP_NAME" st.cfg.gr_group_name
      gr_seeds := resolveStr env "GR_SEEDS" st.cfg.gr_seeds
      gr_local_address := resolveStr env "GR_LOCAL_ADDRESS" st.cfg.gr_local_address
      gr_bootstrap := resolveBool env "GR_BOOTSTRAP" st.cfg.gr_bootstrap
      gr_debug := resolveBool env "GR_DEBUG" st.cfg.gr_debug
      gr_port := (resolveInt env "GR_PORT" st.cfg.gr_port st.cfg.gr_port_specified).1
      gr_port_specified := (resolveInt env "GR_PORT" st.cfg.gr_port st.cfg.gr_port_specified).2
      mysql_port := (resolveInt env "MYSQL_PORT" st.cfg.mysql_port st.cfg.mysql_port_specified).1
      mysql_port_specified :=
        (resolveInt env "MYSQL_PORT" st.cfg.mysql_port st.cfg.mysql_port_specified).2
      dry_run := resolveBool env "DRY_RUN" st.cfg.dry_run
      test_lan_ip := resolveStr env "TEST_LAN_IP" st.cfg.test_lan_ip
      test_output_dir := resolveStr env "TEST_OUTPUT_DIR" st.cfg.test_output_dir
      gcs_debug_trace_path := resolveStr env "GCS_DEBUG_TRACE_PATH" st.cfg.gcs_debug_trace_path
      mysql_argv := st.cfg.mysql_argv }
  warnings :=
    warnStr env "CONTRACT_ADDRESS" st.cfg.contract_address ++
    warnStr env "RPC_URL" st.cfg.rpc_url ++
    warnStr env "RA_TLS_CERT_PATH" st.cfg.cert_path ++
    warnStr env "RA_TLS_CERT_ALGORITHM" st.cfg.ra_tls_cert_algorithm ++
    warnStr env "RA_TLS_ENABLE_VERIFY" st.cfg.ratls_enable_verify ++
    warnStr env "RA_TLS_REQUIRE_PEER_CERT" st.cfg.ratls_require_peer_cert ++
    warnStr env "RA_TLS_ALLOW_OUTDATED_TCB_INSECURE" st.cfg.ra_tls_allow_outdated_tcb ++
    warnStr env "RA_TLS_ALLOW_HW_CONFIG_NEEDED" st.cfg.ra_tls_allow_hw_config_needed ++
    warnStr env "RA_TLS_ALLOW_SW_HARDENING_NEEDED" st.cfg.ra_tls_allow_sw_hardening_needed ++
    warnStr env "MYSQL_GR_GROUP_NAME" st.cfg.gr_group_name ++
    warnStr env "GR_SEEDS" st.cfg.gr_seeds ++
    warnStr env "GR_LOCAL_ADDRESS" st.cfg.gr_local_address ++
    warnBool env "GR_BOOTSTRAP" st.cfg.gr_bootstrap st.cliGrBootstrap ++
    warnBool env "GR_DEBUG" st.cfg.gr_debug st.cliGrDebug ++
    warnInt env "GR_PORT" st.cliGrPort ++
    warnInt env "MYSQL_PORT" st.cliMysqlPort ++
    warnBool env "DRY_RUN" st.cfg.dry_run st.cliDryRun ++
    warnStr env "TEST_LAN_IP" st.cfg.test_lan_ip ++
    warnStr env "TEST_OUTPUT_DIR" st.cfg.test_output_dir ++
    warnStr env "GCS_DEBUG_TRACE_PATH" st.cfg.gcs_debug_trace_path

/-- Path default application (lines 1472-1481). -/
def defaultPath (cur : Option String) (deflt : String) : Option String :=
  match cur with
  | none => some deflt
  | some s => if s = "" then some deflt else some s

/-- Apply `DEFAULT_CERT_PATH` / `DEFAULT_KEY_PATH` / `DEFAULT_DATA_DIR`. -/
def applyDefaults (c : LauncherConfig) : LauncherConfig :=
  { c with
    cert_path := defaultPath c.cert_path "/var/lib/mysql-ssl/server-cert.pem"
    key_path := defaultPath c.key_path "/app/wallet/mysql-keys/server-key.pem"
    data_dir := defaultPath c.data_dir "/app/wallet/mysql-data" }

/-- `parse_args(argc, argv, &config)`: command-line loop, then environment
overrides, then path defaults.  `argv` is the argument vector without the
program name; `Except.error e` models `exit(e)`. -/
def parse_args (argv : List String) (env : Env) : Except Int Resolved :=
  match cliLoop {} argv with
  | .error e => .error e
  | .ok st =>
    let r := applyEnv env st
    .ok { r with cfg := applyDefaults r.cfg }

/-! ### Port negotiator (`is_port_available` lines 530-562,
`find_available_port` lines 567-579, and the per-port negotiation logic of
`main`, lines 2301-2376)

The probe-bind outcome of `is_port_available` is abstracted as an oracle:
`1` (bind succeeded), `0` (`EADDRINUSE`), `-1` (other error, fail open). -/

inductive ProbeResult where
  | available
  | occupied
  | probeError
deriving Repr, DecidableEq

/-- `find_available_port`: linear scan from `start_port` through 65535 for
the first probe-available port; both occupied and probe-error ports are
skipped.  `none` models the C return value `-1`. -/
def findAvailAux (probe : Nat → ProbeResult) : Nat → Nat → Option Nat
  | _, 0 => none
  | p, fuel + 1 => if probe p = .available then some p else findAvailAux probe (p + 1) fuel

def find_available_port (probe : Nat → ProbeResult) (start_port : Nat) : Option Nat :=
  findAvailAux probe start_port (65536 - start_port)

/-- Per-port negotiation in `main` (the GR copy, lines 2347-2374; the
MySQL copy at 2307-2344 is identical modulo the default-port handling):
an occupied port is fatal (`none`, exit 1) when explicitly pinned,
otherwise triggers `find_available_port(port+1)`; a probe error proceeds
with the requested port (warn only). -/
def negotiate_port (probe : Nat → ProbeResult) (port : Nat) (specified : Bool) : Option Nat :=
  match probe port with
  | .occupied => if specified then none else find_available_port probe (port + 1)
  | .available => some port
  | .probeError => some port

/-! ### Identity store: `get_or_create_server_id` (lines 582-624)

The persisted-file read (`fscanf` of `GR_SERVER_ID_FILE`) is abstracted as
`stored : Option Nat` (the successfully scanned value, if any).  The djb2
loop reads bytes through a C `char`, which is signed: a byte `b ≥ 128`
enters the hash as `b - 256`.  `unsigned int` arithmetic is `% 2^32`. -/

def charVal (b : Nat) : Int :=
  if b < 128 then (b : Int) else (b : Int) - 256

/-- One `hash = ((hash << 5) + hash) + c` step in `unsigned int`
arithmetic with a (possibly negative) `int` addend. -/
def hashStepC (h : Nat) (c : Int) : Nat :=
  ((((h <<< 5) + h : Nat) + c : Int) % 4294967296).toNat

/-- The hash of `get_or_create_server_id`: djb2 over the IP string's
bytes, then the low byte and the high byte of the GR port. -/
def ipPortHash (ip : List Nat) (port : Nat) : Nat :=
  hashStepC (hashStepC (ip.foldl (fun h b => hashStepC h (charVal b)) 5381) ((port % 256 : Nat) : Int))
    (((port / 256) % 256 : Nat) : Int)

/-- `server_id = (hash % 4294967294) + 1` (line 611). -/
def derive_server_id (ip : List Nat) (port : Nat) : Nat :=
  ipPortHash ip port % 4294967294 + 1

/-- `get_or_create_server_id`: a persisted positive value wins; otherwise
derive from (IP, port) (the write-back of the derived value is a side
effect on the identity file, not modelled here). -/
def get_or_create_server_id (stored : Option Nat) (ip : List Nat) (port : Nat) : Nat :=
  match stored with
  | some v => if 0 < v then v else derive_server_id ip port
  | none => derive_server_id ip port

/-- The spec's description of the same derivation (§4.3): seed 5381,
`hash = hash * 33 + byte` over the UTF-8 bytes, then the low and high
bytes of the port, reduced into `[1, 2^32-2]` plus one. -/
def specHashStep (h b : Nat) : Nat := (h * 33 + b) % 4294967296

def spec_server_id (ip : List Nat) (port : Nat) : Nat :=
  specHashStep (specHashStep (ip.foldl specHashStep 5381) (port % 256)) (port / 256 % 256)
    % 4294967294 + 1

/-! ### Whitelist table (lines 1997-2210)

`struct whitelist_csv`: 5 parallel columns of string cells.  Cells are C
strings, modelled as byte lists; a rule is the tuple of the cells at one
index across all 5 columns, with `"0"` (byte 48) substituted for a
missing cell in a short column. -/

/-- A cell value (a C string as its byte list). -/
abbrev Cell := List Nat

/-- The `"0"` sentinel cell. -/
def cellZero : Cell := [48]

/-- `struct whitelist_csv`: `lines[i]` is the cell list of column `i`
(the first `count` entries of the C `values` array). -/
structure WhitelistCsv where
  l0 : List Cell
  l1 : List Cell
  l2 : List Cell
  l3 : List Cell
  l4 : List Cell
deriving Repr, DecidableEq

/-- The empty whitelist (all counts 0), as built by `parse_whitelist` for
an absent input. -/
def emptyCsv : WhitelistCsv := ⟨[], [], [], [], []⟩

/-- One rule as a 5-tuple of cells. -/
abbrev Rule := Cell × Cell × Cell × Cell × Cell

/-- Cell of column `l` at rule index `i`, substituting `"0"` when the
column is shorter (`rule_exists`, lines 2124-2125). -/
def cellAt (l : List Cell) (i : Nat) : Cell := l.getD i cellZero

/-- `max_count`: the maximum column length, i.e. the number of rules
(lines 2113-2118). -/
def maxCount (c : WhitelistCsv) : Nat :=
  max (max (max (max c.l0.length c.l1.length) c.l2.length) c.l3.length) c.l4.length

/-- Rule `i` of the table. -/
def ruleAt (c : WhitelistCsv) (i : Nat) : Rule :=
  (cellAt c.l0 i, cellAt c.l1 i, cellAt c.l2 i, cellAt c.l3 i, cellAt c.l4 i)

/-- The rule list of a table, in index order. -/
def rules (c : WhitelistCsv) : List Rule :=
  (List.range (maxCount c)).map (ruleAt c)

/-- `rule_exists` (lines 2111-2137): linear scan of all rule indices for a
tuple equal in every column. -/
def rule_exists (c : WhitelistCsv) (r : Rule) : Bool :=
  (List.range (maxCount c)).any (fun i => decide (ruleAt c i = r))

/-- Appending one cell to a column (lines 2162-2168): bounded by
`MAX_VALUES_PER_LINE` (256) entries per column, and the copied value is
truncated by `strncpy` to `MAX_VALUE_LEN - 1` (127) bytes. -/
def appendCell (l : List Cell) (v : Cell) : List Cell :=
  if l.length < 256 then l ++ [v.take 127] else l

/-- Appending one rule to the destination table (lines 2160-2169). -/
def appendRule (c : WhitelistCsv) (r : Rule) : WhitelistCsv :=
  ⟨appendCell c.l0 r.1, appendCell c.l1 r.2.1, appendCell c.l2 r.2.2.1,
   appendCell c.l3 r.2.2.2.1, appendCell c.l4 r.2.2.2.2⟩

/-- `merge_whitelists` (lines 2140-2174): for each source rule (extracted
with `"0"` padding from the source columns), append it to the destination
unless an identical tuple already exists there; the destination grows as
the loop runs, so later source rules are also checked against
already-appended ones. -/
def merge_whitelists (dest src : WhitelistCsv) : WhitelistCsv :=
  (rules src).foldl (fun d r => if rule_exists d r then d else appendRule d r) dest

/-! ### Base64 (lines 1920-1995) -/

/-- The Base64 alphabet (`base64_encode_table`), as byte values. -/
def b64ec (v : Nat) : Nat :=
  List.getD
    [65, 66, 67, 68, 69, 70, 71, 72, 73, 74, 75, 76, 77, 78, 79, 80, 81, 82, 83, 84,
     85, 86, 87, 88, 89, 90, 97, 98, 99, 100, 101, 102, 103, 104, 105, 106, 107, 108,
     109, 110, 111, 112, 113, 114, 115, 116, 117, 118, 119, 120, 121, 122, 48, 49, 50,
     51, 52, 53, 54, 55, 56, 57, 43, 47] v 0

/-- `base64_decode_table` (lines 1921-1938) as a partial function; 255
entries are `none`.  (Index 61, `'='`, maps to 0 in the C table, but the
decoder skips `'='` before the lookup.) -/
def b64dc (c : Nat) : Option Nat :=
  if c = 43 then some 62
  else if c = 47 then some 63
  else if 48 ≤ c ∧ c ≤ 57 then some (c - 48 + 52)
  else if c = 61 then some 0
  else if 65 ≤ c ∧ c ≤ 90 then some (c - 65)
  else if 97 ≤ c ∧ c ≤ 122 then some (c - 97 + 26)
  else none

/-- `base64_encode` (lines 1973-1995): 3 input bytes become 4 alphabet
characters.  The `'='`-padding conditionals at lines 1989-1990 are dead
code: every `input[i++]` read is guarded by `i < input_len`, so `i`
never exceeds `input_len` and the conditions `i > input_len + 1` /
`i > input_len` are false on every iteration.  A 1- or 2-byte tail is
therefore emitted as four alphabet characters of the zero-padded 24-bit
group; the encoder never emits `'='`. -/
def base64_encode : List Nat → List Nat
  | [] => []
  | [a] =>
    let t := a * 65536
    [b64ec (t / 262144 % 64), b64ec (t / 4096 % 64), b64ec (t / 64 % 64), b64ec (t % 64)]
  | [a, b] =>
    let t := a * 65536 + b * 256
    [b64ec (t / 262144 % 64), b64ec (t / 4096 % 64), b64ec (t / 64 % 64), b64ec (t % 64)]
  | a :: b :: c :: rest =>
    let t := a * 65536 + b * 256 + c
    b64ec (t / 262144 % 64) :: b64ec (t / 4096 % 64) :: b64ec (t / 64 % 64) :: b64ec (t % 64) ::
      base64_encode rest

/-- `base64_decode` (lines 1944-1971): fold a 6-bit accumulator over the
input, skipping `'='`, newline, carriage return and space; any other
non-alphabet byte is an error (`none`, C returns -1).  An output byte is
emitted whenever 8 bits are buffered; `buf` is a C `unsigned int`.
(The output-capacity check is not modelled: the only caller allocates
`strlen(input)` bytes, which a 3/4-rate decoder cannot overrun.) -/
def b64decAux : List Nat → Nat → Nat → Option (List Nat)
  | [], _, _ => some []
  | c :: rest, buf, bits =>
    if c = 61 ∨ c = 10 ∨ c = 13 ∨ c = 32 then b64decAux rest buf bits
    else
      match b64dc c with
      | none => none
      | some v =>
        let buf2 := (buf * 64 + v) % 4294967296
        let bits2 := bits + 6
        if 8 ≤ bits2 then
          match b64decAux rest buf2 (bits2 - 8) with
          | none => none
          | some out => some ((buf2 / 2 ^ (bits2 - 8)) % 256 :: out)
        else b64decAux rest buf2 bits2

def base64_decode (input : List Nat) : Option (List Nat) :=
  b64decAux input 0 0

/-! ### Whitelist CSV text layer (lines 2011-2108 and 2177-2210) -/

/-- Whitespace test used by `parse_csv_line` (space or tab). -/
def isWsB (c : Nat) : Bool := c == 32 || c == 9

/-- Trailing-whitespace trim of a cell value (lines 2040-2041). -/
def trimTrail (l : List Nat) : List Nat :=
  (l.reverse.dropWhile isWsB).reverse

/-- The value-splitting loop of `parse_csv_line` (lines 2031-2054): skip
leading whitespace, take up to the next comma, trim trailing whitespace,
keep the value only when `0 < len < 128`, stop after 256 values. -/
def parseCellsAux (s : List Nat) (count : Nat) : List Cell :=
  if s = [] then []
  else if 256 ≤ count then []
  else
    let t := s.dropWhile isWsB
    let seg := t.takeWhile (fun c => c != 44)
    let cell := trimTrail seg
    let kept := if 0 < cell.length ∧ cell.length < 128 then [cell] else []
    match hdw : t.dropWhile (fun c => c != 44) with
    | _ :: rest2 => kept ++ parseCellsAux rest2 (count + kept.length)
    | [] => kept
termination_by s.length
decreasing_by
  have h3 : (s.dropWhile isWsB).length ≤ s.length := (List.dropWhile_sublist _).length_le
  have h2 : ((s.dropWhile isWsB).dropWhile (fun c => c != 44)).length ≤
      (s.dropWhile isWsB).length := (List.dropWhile_sublist _).length_le
  rw [hdw] at h2
  simp only [List.length_cons] at h2
  omega

/-- `parse_csv_line` (lines 2012-2061): an empty line, the literal `"0"`
line, and a line from which no value survives all become the single
sentinel cell `"0"`. -/
def parse_csv_line (line : List Nat) : List Cell :=
  if line = [] then [cellZero]
  else if line = cellZero then [cellZero]
  else
    match parseCellsAux line 0 with
    | [] => [cellZero]
    | cells => cells

/-- Split on a separator byte, keeping empty fields (C `strsep`). -/
def splitByte (sep : Nat) : List Nat → List (List Nat)
  | [] => [[]]
  | c :: rest =>
    if c = sep then [] :: splitByte sep rest
    else
      match splitByte sep rest with
      | [] => [[c]]
      | f :: fs => (c :: f) :: fs

/-- Trailing carriage-return strip (lines 2092-2095). -/
def stripCR (l : List Nat) : List Nat :=
  if l.getLast? = some 13 then l.dropLast else l

/-- `parse_whitelist` (lines 2064-2108): an absent/empty input is the
empty table; otherwise Base64-decode (`none` on failure, C returns -1).
The decoded buffer is NUL-terminated (`decoded[decoded_len] = 0`) and
then handed to `strsep` as a C string, so everything from the first NUL
byte of the decoded data on is invisible to the parser: the effective
text is the longest NUL-free prefix.  That prefix is split into at most
`WHITELIST_NUM_LINES` (5) newline-separated lines (empty fields kept),
each line is parsed and the remaining columns are left empty. -/
def parse_whitelist (b64 : List Nat) : Option WhitelistCsv :=
  if b64 = [] then some emptyCsv
  else
    match base64_decode b64 with
    | none => none
    | some bytes =>
      let cstr := bytes.takeWhile (fun c => c != 0)
      let ls := ((splitByte 10 cstr).take 5).map (fun f => parse_csv_line (stripCR f))
      some ⟨ls.getD 0 [], ls.getD 1 [], ls.getD 2 [], ls.getD 3 [], ls.getD 4 []⟩

/-- Comma-join of one column's cells (lines 2192-2200). -/
def joinComma : List Cell → List Nat
  | [] => []
  | [c] => c
  | c :: cs => c ++ 44 :: joinComma cs

/-- One serialized column line: comma-joined cells plus `'\n'`. -/
def serializeLine (cells : List Cell) : List Nat := joinComma cells ++ [10]

/-- The CSV text of a table (lines 2191-2202): five `'\n'`-terminated
comma-joined column lines. -/
def serializeCsv (c : WhitelistCsv) : List Nat :=
  serializeLine c.l0 ++ serializeLine c.l1 ++ serializeLine c.l2 ++
    serializeLine c.l3 ++ serializeLine c.l4

/-- `serialize_whitelist` (lines 2177-2210): CSV text, Base64-wrapped. -/
def serialize_whitelist (c : WhitelistCsv) : List Nat :=
  base64_encode (serializeCsv c)

/-! ### Seed list builder (`seed_in_list` lines 764-793,
`build_seeds_list` lines 804-852) -/

/-- Decimal rendering of a port (`snprintf "%d"`, digits as bytes).
Structural recursion on a fuel bound (`n/10 < n`, so `fuel = n`
suffices); the fuel-exhausted arm is unreachable. -/
def natDigitsAux : Nat → Nat → List Nat → List Nat
  | 0, n, acc => (48 + n % 10) :: acc
  | fuel + 1, n, acc =>
    if n < 10 then (48 + n) :: acc
    else natDigitsAux fuel (n / 10) ((48 + n % 10) :: acc)

def natToDec (n : Nat) : List Nat := natDigitsAux n n []

/-- `strtok_r` with a single-byte separator: the nonempty fields. -/
def strtokSplit (sep : Nat) (l : List Nat) : List (List Nat) :=
  (splitByte sep l).filter (fun t => !t.isEmpty)

/-- The token whitespace trim of `build_seeds_list`/`seed_in_list`
(lines 775-781, 817-823): leading and trailing `' '` bytes. -/
def trimSp (t : List Nat) : List Nat :=
  ((t.dropWhile (fun c => c == 32)).reverse.dropWhile (fun c => c == 32)).reverse

/-- Append `:port` when the token has no `':'` (byte 58), lines 827-833,
through the 80-byte `seed_with_port` buffer (`char[MAX_IP_LEN + 16]`):
the colon branch `strncpy`s at most 79 bytes, and the colon-free
branch's `snprintf "%s:%d"` keeps at most 79 bytes of the qualified
string, so a token of 79 or more bytes is cut and can lose part or all
of its `:port` suffix. -/
def withPort (t : List Nat) (port : Nat) : List Nat :=
  if 58 ∈ t then t.take 79 else (t ++ 58 :: natToDec port).take 79

/-- Port qualification as §4.4 of the spec words it (append `:port` when
no `':'` is present, with no buffer cap); the seed-list claim compares
the buffer computation against a fold over this function. -/
def withPortSpec (t : List Nat) (port : Nat) : List Nat :=
  if 58 ∈ t then t else t ++ 58 :: natToDec port

/-- `seed_in_list`: tokenize the accumulated comma-joined buffer, trim
each token, and compare for an exact byte-for-byte match. -/
def seed_in_list (seeds : List Nat) (seed_with_port : List Nat) : Bool :=
  if seeds.isEmpty then false
  else (strtokSplit 44 seeds).any (fun tok => trimSp tok == seed_with_port)

/-- The token loop of `build_seeds_list` in the truncation-free regime
(every qualified entry short enough for `seed_with_port` and the growing
comma-joined buffer within `MAX_SEEDS_LEN`); the faithful buffer loop
`bsAuxT` below is proved to coincide with it under those bounds. -/
def bsAux (port : Nat) : List (List Nat) → List Nat → List Nat
  | [], buf => buf
  | tok :: rest, buf =>
    let tt := trimSp tok
    if tt.isEmpty then bsAux port rest buf
    else
      let swp := withPortSpec tt port
      if seed_in_list buf swp then bsAux port rest buf
      else bsAux port rest (if buf.isEmpty then swp else buf ++ 44 :: swp)

/-- One `snprintf(seeds_buf + len, MAX_SEEDS_LEN - len, "%s", s)` append
(lines 839-843) acting on the buffer's C-string value.  `len` advances by
snprintf's untruncated return value; while it still points at the
string's end, the text is appended truncated to the remaining capacity
(capacity minus the terminating NUL), and once `len` has drifted past a
truncation's NUL terminator, later writes land beyond it and the string
value no longer changes. -/
def snprintfCat (buf : List Nat) (len : Nat) (s : List Nat) : List Nat × Nat :=
  (if len = buf.length then buf ++ s.take (4096 - len - 1) else buf, len + s.length)

/-- The token loop of `build_seeds_list` (lines 815-847) over the
`MAX_SEEDS_LEN = 4096` buffer: per trimmed nonempty token, qualify with
the port through the 80-byte `seed_with_port` buffer, and when the dedup
lookup fails, append `","` (only when `len > 0`) and then the entry,
both with `snprintf` semantics on the (string value, running length)
pair. -/
def bsAuxT (port : Nat) : List (List Nat) → List Nat × Nat → List Nat × Nat
  | [], st => st
  | tok :: rest, st =>
    let tt := trimSp tok
    if tt.isEmpty then bsAuxT port rest st
    else
      let swp := withPort tt port
      if seed_in_list st.1 swp then bsAuxT port rest st
      else
        let st1 := if 0 < st.2 then snprintfCat st.1 st.2 [44] else st
        bsAuxT port rest (snprintfCat st1.1 st1.2 swp)

/-- `build_seeds_list` (lines 804-852): tokenize `extra_seeds` on
commas, trim, qualify with the GR port, and append each novel entry to
the `MAX_SEEDS_LEN` seeds buffer; the result is the buffer's C-string
value. -/
def build_seeds_list (extra_seeds : List Nat) (gr_port : Nat) : List Nat :=
  if extra_seeds.isEmpty then []
  else (bsAuxT gr_port (strtokSplit 44 extra_seeds) ([], 0)).1

/-- A trimmed token whose port-qualified form fits the 80-byte
`seed_with_port` buffer without `strncpy`/`snprintf` truncation. -/
def noTruncTok (t : List Nat) (port : Nat) : Prop :=
  (if 58 ∈ t then t.length else t.length + 1 + (natToDec port).length) ≤ 79

/-- The seed-list contract as the spec states it (§4.4): per trimmed
token, qualify with the coordination port when no `:port` suffix is
present, and append only entries not already accumulated (exact match). -/
def buildSeedsSpec (extra_seeds : List Nat) (gr_port : Nat) : List (List Nat) :=
  if extra_seeds.isEmpty then []
  else
    (strtokSplit 44 extra_seeds).foldl
      (fun acc tok =>
        let tt := trimSp tok
        if tt.isEmpty then acc
        else
          let e := withPortSpec tt gr_port
          if e ∈ acc then acc else acc ++ [e])
      []

/-! ### Identity store: group name (`generate_uuid` lines 627-667,
`get_or_create_gr_group_name` lines 691-760) -/

/-- Lowercase hex digit as a byte (`"%02x"`). -/
def hexDigit (n : Nat) : Nat := if n < 10 then 48 + n else 87 + n

/-- Two-digit lowercase hex of one byte. -/
def byteHex (b : Nat) : List Nat := [hexDigit (b / 16 % 16), hexDigit (b % 16)]

/-- `generate_uuid` body on 16 random source bytes: force the version
nibble (`(b6 & 0x0F) | 0x40 = b6 % 16 + 64`) and the RFC 4122 variant
(`(b8 & 0x3F) | 0x80 = b8 % 64 + 128`), and hex-format 8-4-4-4-12. -/
def generate_uuid (r : List Nat) : List Nat :=
  byteHex (r.getD 0 0) ++ byteHex (r.getD 1 0) ++ byteHex (r.getD 2 0) ++ byteHex (r.getD 3 0) ++
    [45] ++ byteHex (r.getD 4 0) ++ byteHex (r.getD 5 0) ++
    [45] ++ byteHex (r.getD 6 0 % 16 + 64) ++ byteHex (r.getD 7 0) ++
    [45] ++ byteHex (r.getD 8 0 % 64 + 128) ++ byteHex (r.getD 9 0) ++
    [45] ++ byteHex (r.getD 10 0) ++ byteHex (r.getD 11 0) ++ byteHex (r.getD 12 0) ++
    byteHex (r.getD 13 0) ++ byteHex (r.getD 14 0) ++ byteHex (r.getD 15 0)

/-- The generated UUID as a string. -/
def uuidString (r : List Nat) : String :=
  String.mk ((generate_uuid r).map Char.ofNat)

/-- `strncpy(buf, s, UUID_LEN)` into a 37-byte buffer: keep at most the
first 36 characters (also models the 36-char `fgets` window). -/
def strTake36 (s : String) : String := String.mk (s.data.take 36)

/-- `s != NULL && strlen(s) > 0`. -/
def optNonempty (o : Option String) : Bool :=
  match o with
  | some s => !(s == "")
  | none => false

/-- Persistent-storage write events of the modelled `main` fragment. -/
inductive FsEvent where
  | mkdirs
  | copyTemplate
  | groupNameFile
  | groupNamePlaintext
  | grConfigFile
deriving Repr, DecidableEq

/-- `get_or_create_gr_group_name`: CLI value, else environment value
(persisted on the way), else persisted file line, else a freshly
generated UUID (persisted).  Every branch also writes the plaintext
operator copy.  `is_bootstrap` is explicitly ignored by the C code
(`(void)is_bootstrap`, line 693).  Returns the name and the file writes
performed. -/
def get_or_create_gr_group_name (cliName envName stored : Option String)
    (rand : List Nat) (is_bootstrap : Bool) : String × List FsEvent :=
  if optNonempty cliName then
    (strTake36 (cliName.getD ""), [.groupNamePlaintext])
  else if optNonempty envName then
    (strTake36 (envName.getD ""), [.groupNameFile, .groupNamePlaintext])
  else
    match stored with
    | some line =>
      if strTake36 line = "" then (uuidString rand, [.groupNameFile, .groupNamePlaintext])
      else (strTake36 line, [.groupNamePlaintext])
    | none => (uuidString rand, [.groupNameFile, .groupNamePlaintext])

/-! ### The `main` bootstrap fragment (lines 2281-2714)

The fragment from `parse_args` through the creation of the Group
Replication config file, with the outside world (probe-binds, the file
system, `/dev/urandom`, LAN-IP discovery) abstracted as a `World`.
The whitelist section (lines 2482-2549) only mutates process environment
variables, and `validate_config` (lines 1603-1679) never sets
`has_errors`, so neither can exit or write persistent state. -/

structure World where
  env : Env
  probe : Nat → ProbeResult
  dataDirEmpty : Bool
  templateCopyOk : Bool
  storedGroupName : Option String
  storedServerId : Option Nat
  randBytes : List Nat
  sentinelPresent : Bool
  lanIp : String
  grConfigWriteOk : Bool

/-- Outcome of the modelled fragment: persistent writes in order, the
exit code if the fragment exited, and whether the Group Replication
branch was entered (`none` when the run exited before the group-name
resolution). -/
structure RunOut where
  events : List FsEvent
  exit : Option Int
  grEnabled : Option Bool
deriving Repr, DecidableEq

/-- The `main` fragment after `parse_args` (lines 2294-2714). -/
def runFromConfig (cfg : LauncherConfig) (w : World) : RunOut :=
  -- MySQL port negotiation (lines 2307-2344)
  let mport := if 0 < cfg.mysql_port then cfg.mysql_port.toNat else 3306
  match negotiate_port w.probe mport cfg.mysql_port_specified with
  | none => { events := [], exit := some 1, grEnabled := none }
  | some _ =>
  -- GR XCom port negotiation (lines 2347-2374)
  match negotiate_port w.probe cfg.gr_port.toNat cfg.gr_port_specified with
  | none => { events := [], exit := some 1, grEnabled := none }
  | some _ =>
  -- best-effort directory creation (lines 2413-2462)
  let ev0 := [FsEvent.mkdirs]
  -- template materialization (lines 2472-2480)
  if w.dataDirEmpty ∧ ¬ w.templateCopyOk then
    { events := ev0 ++ [.copyTemplate], exit := some 1, grEnabled := none }
  else
  let ev1 := ev0 ++ (if w.dataDirEmpty then [FsEvent.copyTemplate] else [])
  -- whitelist configuration (lines 2482-2549): env-var effects only
  -- group-name resolution (line 2568)
  let gn := get_or_create_gr_group_name cfg.gr_group_name (w.env "MYSQL_GR_GROUP_NAME")
    w.storedGroupName w.randBytes cfg.gr_bootstrap
  let ev2 := ev1 ++ gn.2
  if hgn : gn.1 = "" then
    -- gr_enabled = 0: the GR branch is skipped (fragment ends)
    { events := ev2, exit := none, grEnabled := some false }
  else
    -- join mode requires seeds (lines 2583-2588)
    if ¬ cfg.gr_bootstrap ∧ ¬ optNonempty cfg.gr_seeds then
      { events := ev2, exit := some 1, grEnabled := some true }
    else
      -- LAN IP (lines 2590-2598) and GR local address (lines 2622-2634)
      let ip := match cfg.test_lan_ip with
                | some t => if t = "" then w.lanIp else t
                | none => w.lanIp
      if optNonempty cfg.gr_local_address = false ∧ ip = "" then
        { events := ev2, exit := some 1, grEnabled := some true }
      else
        -- server id (line 2601), seeds (line 2609), GR config (lines 2697-2705)
        if w.grConfigWriteOk then
          { events := ev2 ++ [.grConfigFile], exit := none, grEnabled := some true }
        else
          { events := ev2 ++ [.grConfigFile], exit := some 1, grEnabled := some true }

/-- `main` from `parse_args` on: a parse failure exits before anything
touches persistent state. -/
def runLauncher (argv : List String) (w : World) : RunOut :=
  match parse_args argv w.env with
  | .error e => { events := [], exit := some e, grEnabled := none }
  | .ok r => runFromConfig r.cfg w

/-! ### Table predicates used by the whitelist claims -/

/-- All five columns have the same length (no ragged short columns). -/
def uniformCsv (c : WhitelistCsv) (n : Nat) : Prop :=
  c.l0.length = n ∧ c.l1.length = n ∧ c.l2.length = n ∧ c.l3.length = n ∧ c.l4.length = n

/-- Every stored cell fits a `values[...]` slot without `strncpy`
truncation (at most `MAX_VALUE_LEN - 1 = 127` bytes). -/
def shortCellsCsv (c : WhitelistCsv) : Prop :=
  ∀ v ∈ c.l0 ++ c.l1 ++ c.l2 ++ c.l3 ++ c.l4, v.length ≤ 127

/-- A cell that survives the CSV text layer unchanged: nonempty, shorter
than `MAX_VALUE_LEN`, free of NUL/comma/LF/CR bytes (all bytes proper
`unsigned char` values), and without leading or trailing blank. -/
def canonicalCell (v : Cell) : Prop :=
  v ≠ [] ∧ v.length < 128 ∧ (∀ b ∈ v, 0 < b ∧ b < 256 ∧ b ≠ 44 ∧ b ≠ 10 ∧ b ≠ 13) ∧
    isWsB (v.headD 0) = false ∧ isWsB (v.getLastD 0) = false

/-- A column that survives the CSV text layer unchanged: between 1 and
`MAX_VALUES_PER_LINE = 256` canonical cells. -/
def canonicalLine (l : List Cell) : Prop :=
  l ≠ [] ∧ l.length ≤ 256 ∧ ∀ v ∈ l, canonicalCell v

/-- A whitelist table on which the encoding round-trips. -/
def canonicalCsv (c : WhitelistCsv) : Prop :=
  canonicalLine c.l0 ∧ canonicalLine c.l1 ∧ canonicalLine c.l2 ∧
    canonicalLine c.l3 ∧ canonicalLine c.l4

/-! ### Concrete tables and worlds used by counterexamples and
witnesses -/

/-- A ragged table: column 0 holds `"a","c"`, column 1 holds `"b"`. -/
def raggedA : WhitelistCsv := ⟨[[97], [99]], [[98]], [], [], []⟩

/-- A ragged table: column 0 holds `"x"`, column 1 holds `"y"`. -/
def raggedB : WhitelistCsv := ⟨[[120]], [[121]], [], [], []⟩

/-- A probe oracle with ports 33061 and 33062 occupied, all others
free. -/
def probeTwoBusy : Nat → ProbeResult := fun p =>
  if p = 33061 ∨ p = 33062 then .occupied else .available

/-- An environment with only `GR_PORT` set, to the out-of-range text
`"99999"`. -/
def envBadGrPort : Env := fun nm => if nm = "GR_PORT" then some "99999" else none

/-- The all-defaults world of the end-to-end join-mode scenario: empty
environment, all ports free, empty data directory, no persisted identity,
zero random bytes, LAN IP detected. -/
def joinWorld : World where
  env := fun _ => none
  probe := fun _ => .available
  dataDirEmpty := true
  templateCopyOk := true
  storedGroupName := none
  storedServerId := none
  randBytes := List.replicate 16 0
  sentinelPresent := false
  lanIp := "10.0.0.5"
  grConfigWriteOk := true

/-- The empty process environment. -/
def emptyEnv : Env := fun _ => none

/-- The resolution of an empty argv in an empty environment: everything
at its compiled-in default. -/
def resolvedDefaults : Resolved where
  cfg := { cert_path := some "/var/lib/mysql-ssl/server-cert.pem"
           key_path := some "/app/wallet/mysql-keys/server-key.pem"
           data_dir := some "/app/wallet/mysql-data" }
  warnings := []

/-- The same resolution when argv carries three would-be secret-path
tokens: they are collected verbatim for the engine, nothing else moves. -/
def resolvedDefaultsPassthru : Resolved where
  cfg := { cert_path := some "/var/lib/mysql-ssl/server-cert.pem"
           key_path := some "/app/wallet/mysql-keys/server-key.pem"
           data_dir := some "/app/wallet/mysql-data"
           mysql_argv := ["--key-path=/tmp/evil", "--data-dir=/tmp/evil", "--whitelist-config=x"] }
  warnings := []

/-- Command line for the override scenario: contract address, bootstrap
flag and GR port all set. -/
def argvOverride : List String :=
  ["--contract-address=0xCLI", "--gr-bootstrap=0", "--gr-port=35000"]

/-- Environment for the override scenario: the same three options with
different values. -/
def envOverride : Env := fun nm =>
  if nm = "CONTRACT_ADDRESS" then some "0xENV"
  else if nm = "GR_BOOTSTRAP" then some "true"
  else if nm = "GR_PORT" then some "34000"
  else none

/-- The loop state after parsing `argvOverride`. -/
def stOverride : ParseSt where
  cfg := { contract_address := some "0xCLI", gr_bootstrap := false
           gr_port := 35000, gr_port_specified := true }
  cliGrBootstrap := true
  cliGrPort := true

/-- A well-formed seed-list entry: nonempty, comma-free, and without a
blank at either end (the invariant of every entry `build_seeds_list`
stores in its buffer). -/
def entryOk (e : List Nat) : Prop :=
  e ≠ [] ∧ 44 ∉ e ∧ e.head? ≠ some 32 ∧ e.getLast? ≠ some 32

/-- The bytes of `"10.0.0.1,10.0.0.1:33061"`. -/
def seedsExampleInput : List Nat :=
  [49, 48, 46, 48, 46, 48, 46, 49, 44, 49, 48, 46, 48, 46, 48, 46, 49, 58, 51, 51, 48, 54, 49]

/-- The bytes of `"10.0.0.1:33061"`. -/
def seedsExampleEntry : List Nat :=
  [49, 48, 46, 48, 46, 48, 46, 49, 58, 51, 51, 48, 54, 49]

/-- All five cells of a rule fit a cell slot without truncation. -/
def ruleShort (r : Rule) : Prop :=
  r.1.length ≤ 127 ∧ r.2.1.length ≤ 127 ∧ r.2.2.1.length ≤ 127 ∧
    r.2.2.2.1.length ≤ 127 ∧ r.2.2.2.2.length ≤ 127

/-- A one-rule uniform table holding `"a"` in every column. -/
def uniA : WhitelistCsv := ⟨[[97]], [[97]], [[97]], [[97]], [[97]]⟩

/-- A one-rule uniform table holding `"b"` in every column. -/
def uniB : WhitelistCsv := ⟨[[98]], [[98]], [[98]], [[98]], [[98]]⟩

/-- The rule `("c","y","0","0","0")` distinguishing the two merge
orders of the ragged tables. -/
def cexRule : Rule := ([99], [121], [48], [48], [48])

/-- A canonical single-rule table, `10.0.0.1 / root / mysql / 0 / 0`
(host, user, database and two sentinel columns). -/
def canonT0 : WhitelistCsv :=
  ⟨[[49, 48, 46, 48, 46, 48, 46, 49]], [[114, 111, 111, 116]],
   [[109, 121, 115, 113, 108]], [[48]], [[48]]⟩

/-! ## Theorems -/

/-! ### Port negotiation (C3) -/

/-- `findAvailAux` returns the first available port in its window. -/
theorem findAvailAux_eq_some (probe : Nat → ProbeResult) (q : Nat) :
    ∀ fuel p, p ≤ q → q < p + fuel → probe q = .available →
      (∀ r, p ≤ r → r < q → probe r ≠ .available) →
      findAvailAux probe p fuel = some q := by
  intro fuel
  induction fuel with
  | zero => intro p h1 h2 _ _; omega
  | succ n ih =>
    intro p h1 h2 h3 h4
    by_cases hp : probe p = .available
    · have hpq : p = q := by
        by_contra hne
        exact h4 p le_rfl (by omega) hp
      subst hpq
      simp [findAvailAux, h3]
    · have hlt : p < q := by
        rcases Nat.lt_or_ge p q with h | h
        · exact h
        · have : p = q := by omega
          exact absurd (this ▸ h3) hp
      simp only [findAvailAux, if_neg hp]
      exact ih (p + 1) (by omega) (by omega) h3 (fun r hr1 hr2 => h4 r (by omega) hr2)

/-- `findAvailAux` fails when no port in its window is available. -/
theorem findAvailAux_eq_none (probe : Nat → ProbeResult) :
    ∀ fuel p, (∀ r, p ≤ r → r < p + fuel → probe r ≠ .available) →
      findAvailAux probe p fuel = none := by
  intro fuel
  induction fuel with
  | zero => intro p _; rfl
  | succ n ih =>
    intro p h
    have hp : probe p ≠ .available := h p le_rfl (by omega)
    simp only [findAvailAux, if_neg hp]
    exact ih (p + 1) (fun r hr1 hr2 => h r (by omega) (by omega))

/-- C3: port negotiation is asymmetric.  (i) A pinned occupied port is
fatal (`none` models the exit-1 path), and no auto-increment occurs even
when higher ports are free; (ii) a default occupied port makes the
negotiator return the first available port `≥ requested + 1`; (iii) a
default occupied port with no available port through 65535 is fatal. -/
theorem port_negotiation_asymmetry :
    (∀ (probe : Nat → ProbeResult) (port : Nat),
       probe port = .occupied → negotiate_port probe port true = none) ∧
    (∀ (probe : Nat → ProbeResult) (port q : Nat),
       probe port = .occupied → port + 1 ≤ q → q ≤ 65535 → probe q = .available →
       (∀ r, port + 1 ≤ r → r < q → probe r ≠ .available) →
       negotiate_port probe port false = some q) ∧
    (∀ (probe : Nat → ProbeResult) (port : Nat),
       probe port = .occupied →
       (∀ r, port + 1 ≤ r → r ≤ 65535 → probe r ≠ .available) →
       negotiate_port probe port false = none) := by
  refine ⟨?_, ?_, ?_⟩
  · intro probe port h
    simp [negotiate_port, h]
  · intro probe port q h h1 h2 h3 h4
    simp only [negotiate_port, h, if_neg (by simp : ¬ (false = true)), find_available_port]
    exact findAvailAux_eq_some probe q _ (port + 1) h1 (by omega) h3 h4
  · intro probe port h h1
    simp only [negotiate_port, h, if_neg (by simp : ¬ (false = true)), find_available_port]
    exact findAvailAux_eq_none probe _ (port + 1) (fun r hr1 hr2 => h1 r hr1 (by omega))

/-- Witness for C3: with ports 33061 and 33062 occupied and everything
else free, pinning 33061 fails while the default path lands on 33063. -/
theorem port_negotiation_asymmetry_witness :
    negotiate_port probeTwoBusy 33061 true = none ∧
    negotiate_port probeTwoBusy 33061 false = some 33063 := by
  constructor
  · exact port_negotiation_asymmetry.1 probeTwoBusy 33061 (by decide)
  · refine port_negotiation_asymmetry.2.1 probeTwoBusy 33061 33063 (by decide) (by omega)
      (by omega) (by decide) ?_
    intro r h1 h2
    have : r = 33062 := by omega
    subst this
    decide

/-! ### Server id derivation (C4) -/

/-- One signed-char hash step agrees with the plain byte formulation on
ASCII bytes. -/
theorem hashStepC_charVal (h b : Nat) (hb : b < 128) :
    hashStepC h (charVal b) = specHashStep h b := by
  simp only [hashStepC, charVal, if_pos hb, specHashStep, Nat.shiftLeft_eq]
  have : (((h * 2 ^ 5 + h : Nat) : Int) + (b : Int)) = ((h * 33 + b : Nat) : Int) := by
    push_cast; ring
  rw [this]
  omega

/-- One hash step on a nonnegative addend agrees with the plain
formulation. -/
theorem hashStepC_natCast (h b : Nat) :
    hashStepC h ((b : Nat) : Int) = specHashStep h b := by
  simp only [hashStepC, specHashStep, Nat.shiftLeft_eq]
  have : (((h * 2 ^ 5 + h : Nat) : Int) + (b : Int)) = ((h * 33 + b : Nat) : Int) := by
    push_cast; ring
  rw [this]
  omega

/-- The full derivation agrees with the spec formulation on ASCII IP
strings. -/
theorem derive_eq_spec (ip : List Nat) (port : Nat) (hip : ∀ b ∈ ip, b < 128) :
    derive_server_id ip port = spec_server_id ip port := by
  have hfold : ∀ (l : List Nat) (a : Nat), (∀ b ∈ l, b < 128) →
      l.foldl (fun h b => hashStepC h (charVal b)) a = l.foldl specHashStep a := by
    intro l
    induction l with
    | nil => intro a _; rfl
    | cons x xs ih =>
      intro a hl
      simp only [List.foldl_cons]
      rw [hashStepC_charVal a x (hl x (by simp))]
      exact ih _ (fun b hb => hl b (by simp [hb]))
  simp only [derive_server_id, spec_server_id, ipPortHash]
  rw [hfold ip 5381 hip, hashStepC_natCast, hashStepC_natCast]

/-- C4: `server_id` derivation.  A persisted positive value is returned
unchanged regardless of the inputs; otherwise the id equals the spec's
formula (djb2 seed 5381, `hash*33 + byte` over the ASCII bytes of the IP,
then the port's low and high bytes, reduced into `[1, 2^32-2]`), and is
never 0.  Purity is inherent: the derivation is a function of
`(ip, port)` only. -/
theorem server_id_derivation :
    (∀ (v : Nat) (ip : List Nat) (port : Nat), 0 < v →
       get_or_create_server_id (some v) ip port = v) ∧
    (∀ (ip : List Nat) (port : Nat), (∀ b ∈ ip, b < 128) →
       get_or_create_server_id none ip port = spec_server_id ip port ∧
       1 ≤ get_or_create_server_id none ip port ∧
       get_or_create_server_id none ip port ≤ 4294967294) := by
  constructor
  · intro v ip port hv
    simp [get_or_create_server_id, hv]
  · intro ip port hip
    refine ⟨derive_eq_spec ip port hip, ?_, ?_⟩
    · simp [get_or_create_server_id, derive_server_id]
    · simp only [get_or_create_server_id, derive_server_id]
      have := Nat.mod_lt (ipPortHash ip port) (show 0 < 4294967294 by omega)
      omega

/-- Witness for C4 at IP `"10.0.0.1"`, port 33061, and a persisted id. -/
theorem server_id_derivation_witness :
    get_or_create_server_id (some 7) [49, 48, 46, 48, 46, 48, 46, 49] 33061 = 7 ∧
    get_or_create_server_id none [49, 48, 46, 48, 46, 48, 46, 49] 33061 =
      spec_server_id [49, 48, 46, 48, 46, 48, 46, 49] 33061 := by
  constructor
  · exact server_id_derivation.1 7 _ 33061 (by omega)
  · exact (server_id_derivation.2 _ 33061 (by decide)).1

/-! ### Environment-only fields (C2) -/

/-- C2: the private-key path, the data directory and the raw whitelist
blob are populated only from environment variables: whenever parsing
succeeds, their resolved values are exactly those resolved from an empty
argument vector.  (In the embedding, `applyEnv` assigns all three
directly from `getenv`, and no command-line branch touches them.) -/
theorem env_only_fields_ignore_argv (argv : List String) (env : Env) (r r0 : Resolved)
    (h : parse_args argv env = .ok r) (h0 : parse_args [] env = .ok r0) :
    r.cfg.key_path = r0.cfg.key_path ∧ r.cfg.data_dir = r0.cfg.data_dir ∧
    r.cfg.whitelist_config = r0.cfg.whitelist_config := by
  have e0 : parse_args [] env =
      .ok { cfg := applyDefaults (applyEnv env {}).cfg
            warnings := (applyEnv env {}).warnings } := rfl
  rw [e0] at h0
  unfold parse_args at h
  cases hcl : cliLoop {} argv with
  | error e => rw [hcl] at h; exact absurd h (by simp)
  | ok st =>
    rw [hcl] at h
    simp only [Except.ok.injEq] at h h0
    subst h h0
    exact ⟨rfl, rfl, rfl⟩

set_option maxRecDepth 8000 in
/-- Witness for C2: `--key-path`, `--data-dir` and `--whitelist-config`
tokens on the command line are pass-through, leaving all three fields at
their environment-resolved defaults. -/
theorem env_only_fields_ignore_argv_witness :
    parse_args ["--key-path=/tmp/evil", "--data-dir=/tmp/evil", "--whitelist-config=x"]
        emptyEnv = .ok resolvedDefaultsPassthru ∧
    parse_args [] emptyEnv = .ok resolvedDefaults ∧
    resolvedDefaultsPassthru.cfg.key_path = resolvedDefaults.cfg.key_path ∧
    resolvedDefaultsPassthru.cfg.data_dir = resolvedDefaults.cfg.data_dir ∧
    resolvedDefaultsPassthru.cfg.whitelist_config = resolvedDefaults.cfg.whitelist_config := by
  refine ⟨by rfl, by rfl, ?_⟩
  exact env_only_fields_ignore_argv
    ["--key-path=/tmp/evil", "--data-dir=/tmp/evil", "--whitelist-config=x"] emptyEnv
    resolvedDefaultsPassthru resolvedDefaults (by rfl) (by rfl)

/-- Evaluation of one loop step on a bare `--gr-port` token. -/
theorem cliStep_gr_port (st : ParseSt) (s : String) :
    cliStep st "--gr-port" (some s) =
      if strStartsWith s "-" = true then .halt 1
      else if atoi s ≤ 0 ∨ 65535 < atoi s then .halt 1
      else .cont
        { st with
          cfg := { st.cfg with gr_port := atoi s, gr_port_specified := true }
          cliGrPort := true } true := by
  show (if ¬ strStartsWith s "-" = true then
          if atoi s ≤ 0 ∨ 65535 < atoi s then StepRes.halt 1
          else .cont
            { st with
              cfg := { st.cfg with gr_port := atoi s, gr_port_specified := true }
              cliGrPort := true } true
        else StepRes.halt 1) = _
  by_cases h : strStartsWith s "-" = true <;> simp [h]

/-- Evaluation of one loop step on a bare `--mysql-port` token. -/
theorem cliStep_mysql_port (st : ParseSt) (s : String) :
    cliStep st "--mysql-port" (some s) =
      if strStartsWith s "-" = true then .halt 1
      else if atoi s ≤ 0 ∨ 65535 < atoi s then .halt 1
      else .cont
        { st with
          cfg := { st.cfg with mysql_port := atoi s, mysql_port_specified := true }
          cliMysqlPort := true } true := by
  show (if ¬ strStartsWith s "-" = true then
          if atoi s ≤ 0 ∨ 65535 < atoi s then StepRes.halt 1
          else .cont
            { st with
              cfg := { st.cfg with mysql_port := atoi s, mysql_port_specified := true }
              cliMysqlPort := true } true
        else StepRes.halt 1) = _
  by_cases h : strStartsWith s "-" = true <;> simp [h]

/-! ### Malformed port values (C7) -/

/-- Counterexample to C7: with `GR_PORT=99999` (outside `[1,65535]`) in
the environment, the resolver does not exit: it completes successfully
and keeps the default port 33061 — the malformed environment value is
silently ignored rather than fatal. -/
theorem malformed_env_port_not_fatal_cex :
    parse_args [] envBadGrPort = .ok resolvedDefaults ∧
    envBadGrPort "GR_PORT" = some "99999" ∧
    atoi "99999" = 99999 ∧
    resolvedDefaults.cfg.gr_port = 33061 ∧
    resolvedDefaults.cfg.gr_port_specified = false := by
  exact ⟨by rfl, by rfl, by decide, by rfl, by rfl⟩

/-- C7 amended: a malformed port value on the command line is fatal
(`exit(1)`, and a parse failure yields no persistent-state event at all),
while a malformed port value in an environment variable is silently
ignored: the previously resolved value and its `specified` flag are kept
and the resolver completes.  The `--opt=value` CLI form is shown at the
concrete malformed value `99999`, the `--opt value` form for every
malformed value. -/
theorem malformed_port_cli_fatal_env_ignored :
    (∀ st rest, cliLoop st ("--gr-port=99999" :: rest) = .error 1) ∧
    (∀ st rest, cliLoop st ("--mysql-port=99999" :: rest) = .error 1) ∧
    (∀ st s rest, strStartsWith s "-" = false → atoi s ≤ 0 ∨ 65535 < atoi s →
       cliLoop st ("--gr-port" :: s :: rest) = .error 1) ∧
    (∀ st s rest, strStartsWith s "-" = false → atoi s ≤ 0 ∨ 65535 < atoi s →
       cliLoop st ("--mysql-port" :: s :: rest) = .error 1) ∧
    (∀ argv (w : World) e, parse_args argv w.env = .error e →
       runLauncher argv w = ⟨[], some e, none⟩) ∧
    (∀ argv env st v, cliLoop {} argv = .ok st → env "GR_PORT" = some v →
       atoi v ≤ 0 ∨ 65535 < atoi v →
       ∃ r, parse_args argv env = .ok r ∧ r.cfg.gr_port = st.cfg.gr_port ∧
         r.cfg.gr_port_specified = st.cfg.gr_port_specified) ∧
    (∀ argv env st v, cliLoop {} argv = .ok st → env "MYSQL_PORT" = some v →
       atoi v ≤ 0 ∨ 65535 < atoi v →
       ∃ r, parse_args argv env = .ok r ∧ r.cfg.mysql_port = st.cfg.mysql_port ∧
         r.cfg.mysql_port_specified = st.cfg.mysql_port_specified) := by
  refine ⟨?_, ?_, ?_, ?_, ?_, ?_, ?_⟩
  · intro st rest
    have hstep : ∀ nxt, cliStep st "--gr-port=99999" nxt = .halt 1 := fun _ => rfl
    cases rest <;> simp [cliLoop, hstep]
  · intro st rest
    have hstep : ∀ nxt, cliStep st "--mysql-port=99999" nxt = .halt 1 := fun _ => rfl
    cases rest <;> simp [cliLoop, hstep]
  · intro st s rest hs hbad
    have hstep : cliStep st "--gr-port" (some s) = .halt 1 := by
      rw [cliStep_gr_port, if_neg (by simp [hs]), if_pos hbad]
    simp [cliLoop, hstep]
  · intro st s rest hs hbad
    have hstep : cliStep st "--mysql-port" (some s) = .halt 1 := by
      rw [cliStep_mysql_port, if_neg (by simp [hs]), if_pos hbad]
    simp [cliLoop, hstep]
  · intro argv w e h
    simp [runLauncher, h]
  · intro argv env st v hcl hv hbad
    refine ⟨{ cfg := applyDefaults (applyEnv env st).cfg
              warnings := (applyEnv env st).warnings },
           by simp [parse_args, hcl], ?_, ?_⟩
    · show (resolveInt env "GR_PORT" st.cfg.gr_port st.cfg.gr_port_specified).1 =
        st.cfg.gr_port
      by_cases hve : v = "" <;>
        simp [resolveInt, hv, hve, if_neg (by omega : ¬ (0 < atoi v ∧ atoi v ≤ 65535))]
    · show (resolveInt env "GR_PORT" st.cfg.gr_port st.cfg.gr_port_specified).2 =
        st.cfg.gr_port_specified
      by_cases hve : v = "" <;>
        simp [resolveInt, hv, hve, if_neg (by omega : ¬ (0 < atoi v ∧ atoi v ≤ 65535))]
  · intro argv env st v hcl hv hbad
    refine ⟨{ cfg := applyDefaults (applyEnv env st).cfg
              warnings := (applyEnv env st).warnings },
           by simp [parse_args, hcl], ?_, ?_⟩
    · show (resolveInt env "MYSQL_PORT" st.cfg.mysql_port st.cfg.mysql_port_specified).1 =
        st.cfg.mysql_port
      by_cases hve : v = "" <;>
        simp [resolveInt, hv, hve, if_neg (by omega : ¬ (0 < atoi v ∧ atoi v ≤ 65535))]
    · show (resolveInt env "MYSQL_PORT" st.cfg.mysql_port st.cfg.mysql_port_specified).2 =
        st.cfg.mysql_port_specified
      by_cases hve : v = "" <;>
        simp [resolveInt, hv, hve, if_neg (by omega : ¬ (0 < atoi v ∧ atoi v ≤ 65535))]

/-- Witness for the amended C7 at concrete inputs. -/
theorem malformed_port_cli_fatal_env_ignored_witness :
    cliLoop {} ["--gr-port=99999"] = .error 1 ∧
    cliLoop {} ["--gr-port", "0"] = .error 1 ∧
    runLauncher ["--mysql-port=99999"] joinWorld = ⟨[], some 1, none⟩ ∧
    (∃ r, parse_args [] envBadGrPort = .ok r ∧ r.cfg.gr_port = ({} : ParseSt).cfg.gr_port ∧
       r.cfg.gr_port_specified = ({} : ParseSt).cfg.gr_port_specified) := by
  refine ⟨?_, ?_, ?_, ?_⟩
  · exact malformed_port_cli_fatal_env_ignored.1 {} []
  · exact malformed_port_cli_fatal_env_ignored.2.2.1 {} "0" [] (by rfl) (by decide)
  · exact malformed_port_cli_fatal_env_ignored.2.2.2.2.1 ["--mysql-port=99999"] joinWorld 1
      (by rfl)
  · exact malformed_port_cli_fatal_env_ignored.2.2.2.2.2.1 [] envBadGrPort {} "99999"
      (by rfl) (by rfl) (by decide)

/-! ### Environment overrides command line (C1) -/

/-- C1: for every shared option, a non-empty environment value (for the
port options: one whose numeric value is a valid port, the only values a
port option accepts) overrides whatever the command line set, the
resolver completes instead of exiting, and whenever the command line had
set the option (for the booleans: to a different value, the only case the
claim calls an override) a warning naming the variable is logged. -/
theorem env_overrides_cli (argv : List String) (env : Env) (st : ParseSt)
    (hcl : cliLoop {} argv = .ok st) :
    ∃ r, parse_args argv env = .ok r ∧
      (∀ v, env "CONTRACT_ADDRESS" = some v → v ≠ "" →
         r.cfg.contract_address = some v ∧
         (st.cfg.contract_address.isSome = true → "CONTRACT_ADDRESS" ∈ r.warnings)) ∧
      (∀ v, env "RPC_URL" = some v → v ≠ "" →
         r.cfg.rpc_url = some v ∧
         (st.cfg.rpc_url.isSome = true → "RPC_URL" ∈ r.warnings)) ∧
      (∀ v, env "RA_TLS_CERT_PATH" = some v → v ≠ "" →
         r.cfg.cert_path = some v ∧
         (st.cfg.cert_path.isSome = true → "RA_TLS_CERT_PATH" ∈ r.warnings)) ∧
      (∀ v, env "RA_TLS_CERT_ALGORITHM" = some v → v ≠ "" →
         r.cfg.ra_tls_cert_algorithm = some v ∧
         (st.cfg.ra_tls_cert_algorithm.isSome = true → "RA_TLS_CERT_ALGORITHM" ∈ r.warnings)) ∧
      (∀ v, env "RA_TLS_ENABLE_VERIFY" = some v → v ≠ "" →
         r.cfg.ratls_enable_verify = some v ∧
         (st.cfg.ratls_enable_verify.isSome = true → "RA_TLS_ENABLE_VERIFY" ∈ r.warnings)) ∧
      (∀ v, env "RA_TLS_REQUIRE_PEER_CERT" = some v → v ≠ "" →
         r.cfg.ratls_require_peer_cert = some v ∧
         (st.cfg.ratls_require_peer_cert.isSome = true → "RA_TLS_REQUIRE_PEER_CERT" ∈ r.warnings)) ∧
      (∀ v, env "RA_TLS_ALLOW_OUTDATED_TCB_INSECURE" = some v → v ≠ "" →
         r.cfg.ra_tls_allow_outdated_tcb = some v ∧
         (st.cfg.ra_tls_allow_outdated_tcb.isSome = true → "RA_TLS_ALLOW_OUTDATED_TCB_INSECURE" ∈ r.warnings)) ∧
      (∀ v, env "RA_TLS_ALLOW_HW_CONFIG_NEEDED" = some v → v ≠ "" →
         r.cfg.ra_tls_allow_hw_config_needed = some v ∧
         (st.cfg.ra_tls_allow_hw_config_needed.isSome = true → "RA_TLS_ALLOW_HW_CONFIG_NEEDED" ∈ r.warnings)) ∧
      (∀ v, env "RA_TLS_ALLOW_SW_HARDENING_NEEDED" = some v → v ≠ "" →
         r.cfg.ra_tls_allow_sw_hardening_needed = some v ∧
         (st.cfg.ra_tls_allow_sw_hardening_needed.isSome = true → "RA_TLS_ALLOW_SW_HARDENING_NEEDED" ∈ r.warnings)) ∧
      (∀ v, env "MYSQL_GR_GROUP_NAME" = some v → v ≠ "" →
         r.cfg.gr_group_name = some v ∧
         (st.cfg.gr_group_name.isSome = true → "MYSQL_GR_GROUP_NAME" ∈ r.warnings)) ∧
      (∀ v, env "GR_SEEDS" = some v → v ≠ "" →
         r.cfg.gr_seeds = some v ∧
         (st.cfg.gr_seeds.isSome = true → "GR_SEEDS" ∈ r.warnings)) ∧
      (∀ v, env "GR_LOCAL_ADDRESS" = some v → v ≠ "" →
         r.cfg.gr_local_address = some v ∧
         (st.cfg.gr_local_address.isSome = true → "GR_LOCAL_ADDRESS" ∈ r.warnings)) ∧
      (∀ v, env "TEST_LAN_IP" = some v → v ≠ "" →
         r.cfg.test_lan_ip = some v ∧
         (st.cfg.test_lan_ip.isSome = true → "TEST_LAN_IP" ∈ r.warnings)) ∧
      (∀ v, env "TEST_OUTPUT_DIR" = some v → v ≠ "" →
         r.cfg.test_output_dir = some v ∧
         (st.cfg.test_output_dir.isSome = true → "TEST_OUTPUT_DIR" ∈ r.warnings)) ∧
      (∀ v, env "GCS_DEBUG_TRACE_PATH" = some v → v ≠ "" →
         r.cfg.gcs_debug_trace_path = some v ∧
         (st.cfg.gcs_debug_trace_path.isSome = true → "GCS_DEBUG_TRACE_PATH" ∈ r.warnings)) ∧
      (∀ v, env "GR_BOOTSTRAP" = some v → v ≠ "" →
         r.cfg.gr_bootstrap = boolVal v ∧
         (st.cliGrBootstrap = true → st.cfg.gr_bootstrap ≠ boolVal v → "GR_BOOTSTRAP" ∈ r.warnings)) ∧
      (∀ v, env "GR_DEBUG" = some v → v ≠ "" →
         r.cfg.gr_debug = boolVal v ∧
         (st.cliGrDebug = true → st.cfg.gr_debug ≠ boolVal v → "GR_DEBUG" ∈ r.warnings)) ∧
      (∀ v, env "DRY_RUN" = some v → v ≠ "" →
         r.cfg.dry_run = boolVal v ∧
         (st.cliDryRun = true → st.cfg.dry_run ≠ boolVal v → "DRY_RUN" ∈ r.warnings)) ∧
      (∀ v, env "GR_PORT" = some v → 0 < atoi v → atoi v ≤ 65535 →
         r.cfg.gr_port = atoi v ∧ r.cfg.gr_port_specified = true ∧
         (st.cliGrPort = true → "GR_PORT" ∈ r.warnings)) ∧
      (∀ v, env "MYSQL_PORT" = some v → 0 < atoi v → atoi v ≤ 65535 →
         r.cfg.mysql_port = atoi v ∧ r.cfg.mysql_port_specified = true ∧
         (st.cliMysqlPort = true → "MYSQL_PORT" ∈ r.warnings)) := by
  refine ⟨{ cfg := applyDefaults (applyEnv env st).cfg
            warnings := (applyEnv env st).warnings },
         by simp [parse_args, hcl], ?_, ?_, ?_, ?_, ?_, ?_, ?_, ?_, ?_, ?_, ?_, ?_, ?_, ?_, ?_, ?_, ?_, ?_, ?_, ?_⟩
  · intro v hv hne
    refine ⟨?_, ?_⟩
    · show resolveStr env "CONTRACT_ADDRESS" st.cfg.contract_address = some v
      simp [resolveStr, hv, hne]
    · intro hsome
      simp [applyEnv, warnStr, hv, hne, hsome]
  · intro v hv hne
    refine ⟨?_, ?_⟩
    · show resolveStr env "RPC_URL" st.cfg.rpc_url = some v
      simp [resolveStr, hv, hne]
    · intro hsome
      simp [applyEnv, warnStr, hv, hne, hsome]
  · intro v hv hne
    refine ⟨?_, ?_⟩
    · show defaultPath (resolveStr env "RA_TLS_CERT_PATH" st.cfg.cert_path) _ = some v
      simp [resolveStr, defaultPath, hv, hne]
    · intro hsome
      simp [applyEnv, warnStr, hv, hne, hsome]
  · intro v hv hne
    refine ⟨?_, ?_⟩
    · show resolveStr env "RA_TLS_CERT_ALGORITHM" st.cfg.ra_tls_cert_algorithm = some v
      simp [resolveStr, hv, hne]
    · intro hsome
      simp [applyEnv, warnStr, hv, hne, hsome]
  · intro v hv hne
    refine ⟨?_, ?_⟩
    · show resolveStr env "RA_TLS_ENABLE_VERIFY" st.cfg.ratls_enable_verify = some v
      simp [resolveStr, hv, hne]
    · intro hsome
      simp [applyEnv, warnStr, hv, hne, hsome]
  · intro v hv hne
    refine ⟨?_, ?_⟩
    · show resolveStr env "RA_TLS_REQUIRE_PEER_CERT" st.cfg.ratls_require_peer_cert = some v
      simp [resolveStr, hv, hne]
    · intro hsome
      simp [applyEnv, warnStr, hv, hne, hsome]
  · intro v hv hne
    refine ⟨?_, ?_⟩
    · show resolveStr env "RA_TLS_ALLOW_OUTDATED_TCB_INSECURE" st.cfg.ra_tls_allow_outdated_tcb = some v
      simp [resolveStr, hv, hne]
    · intro hsome
      simp [applyEnv, warnStr, hv, hne, hsome]
  · intro v hv hne
    refine ⟨?_, ?_⟩
    · show resolveStr env "RA_TLS_ALLOW_HW_CONFIG_NEEDED" st.cfg.ra_tls_allow_hw_config_needed = some v
      simp [resolveStr, hv, hne]
    · intro hsome
      simp [applyEnv, warnStr, hv, hne, hsome]
  · intro v hv hne
    refine ⟨?_, ?_⟩
    · show resolveStr env "RA_TLS_ALLOW_SW_HARDENING_NEEDED" st.cfg.ra_tls_allow_sw_hardening_needed = some v
      simp [resolveStr, hv, hne]
    · intro hsome
      simp [applyEnv, warnStr, hv, hne, hsome]
  · intro v hv hne
    refine ⟨?_, ?_⟩
    · show resolveStr env "MYSQL_GR_GROUP_NAME" st.cfg.gr_group_name = some v
      simp [resolveStr, hv, hne]
    · intro hsome
      simp [applyEnv, warnStr, hv, hne, hsome]
  · intro v hv hne
    refine ⟨?_, ?_⟩
    · show resolveStr env "GR_SEEDS" st.cfg.gr_seeds = some v
      simp [resolveStr, hv, hne]
    · intro hsome
      simp [applyEnv, warnStr, hv, hne, hsome]
  · intro v hv hne
    refine ⟨?_, ?_⟩
    · show resolveStr env "GR_LOCAL_ADDRESS" st.cfg.gr_local_address = some v
      simp [resolveStr, hv, hne]
    · intro hsome
      simp [applyEnv, warnStr, hv, hne, hsome]
  · intro v hv hne
    refine ⟨?_, ?_⟩
    · show resolveStr env "TEST_LAN_IP" st.cfg.test_lan_ip = some v
      simp [resolveStr, hv, hne]
    · intro hsome
      simp [applyEnv, warnStr, hv, hne, hsome]
  · intro v hv hne
    refine ⟨?_, ?_⟩
    · show resolveStr env "TEST_OUTPUT_DIR" st.cfg.test_output_dir = some v
      simp [resolveStr, hv, hne]
    · intro hsome
      simp [applyEnv, warnStr, hv, hne, hsome]
  · intro v hv hne
    refine ⟨?_, ?_⟩
    · show resolveStr env "GCS_DEBUG_TRACE_PATH" st.cfg.gcs_debug_trace_path = some v
      simp [resolveStr, hv, hne]
    · intro hsome
      simp [applyEnv, warnStr, hv, hne, hsome]
  · intro v hv hne
    refine ⟨?_, ?_⟩
    · show resolveBool env "GR_BOOTSTRAP" st.cfg.gr_bootstrap = boolVal v
      simp [resolveBool, hv, hne]
    · intro hcli hdiff
      simp [applyEnv, warnBool, hv, hne, hcli, hdiff]
  · intro v hv hne
    refine ⟨?_, ?_⟩
    · show resolveBool env "GR_DEBUG" st.cfg.gr_debug = boolVal v
      simp [resolveBool, hv, hne]
    · intro hcli hdiff
      simp [applyEnv, warnBool, hv, hne, hcli, hdiff]
  · intro v hv hne
    refine ⟨?_, ?_⟩
    · show resolveBool env "DRY_RUN" st.cfg.dry_run = boolVal v
      simp [resolveBool, hv, hne]
    · intro hcli hdiff
      simp [applyEnv, warnBool, hv, hne, hcli, hdiff]
  · intro v hv h1 h2
    have hne : v ≠ "" := by
      intro hh
      subst hh
      revert h1
      decide
    refine ⟨?_, ?_, ?_⟩
    · show (resolveInt env "GR_PORT" st.cfg.gr_port st.cfg.gr_port_specified).1 = atoi v
      simp [resolveInt, hv, hne, if_pos (⟨h1, h2⟩ : 0 < atoi v ∧ atoi v ≤ 65535)]
    · show (resolveInt env "GR_PORT" st.cfg.gr_port st.cfg.gr_port_specified).2 = true
      simp [resolveInt, hv, hne, if_pos (⟨h1, h2⟩ : 0 < atoi v ∧ atoi v ≤ 65535)]
    · intro hcli
      simp [applyEnv, warnInt, hv, hne, hcli, if_pos (⟨h1, h2⟩ : 0 < atoi v ∧ atoi v ≤ 65535)]
  · intro v hv h1 h2
    have hne : v ≠ "" := by
      intro hh
      subst hh
      revert h1
      decide
    refine ⟨?_, ?_, ?_⟩
    · show (resolveInt env "MYSQL_PORT" st.cfg.mysql_port st.cfg.mysql_port_specified).1 = atoi v
      simp [resolveInt, hv, hne, if_pos (⟨h1, h2⟩ : 0 < atoi v ∧ atoi v ≤ 65535)]
    · show (resolveInt env "MYSQL_PORT" st.cfg.mysql_port st.cfg.mysql_port_specified).2 = true
      simp [resolveInt, hv, hne, if_pos (⟨h1, h2⟩ : 0 < atoi v ∧ atoi v ≤ 65535)]
    · intro hcli
      simp [applyEnv, warnInt, hv, hne, hcli, if_pos (⟨h1, h2⟩ : 0 < atoi v ∧ atoi v ≤ 65535)]

/-- Witness for C1: on `argvOverride`/`envOverride` each environment
value wins and each override is logged. -/
theorem env_overrides_cli_witness :
    ∃ r, parse_args argvOverride envOverride = .ok r ∧
      r.cfg.contract_address = some "0xENV" ∧ "CONTRACT_ADDRESS" ∈ r.warnings ∧
      r.cfg.gr_bootstrap = true ∧ "GR_BOOTSTRAP" ∈ r.warnings ∧
      r.cfg.gr_port = 34000 ∧ "GR_PORT" ∈ r.warnings := by
  obtain ⟨r, hok, hca, _, _, _, _, _, _, _, _, _, _, _, _, _, _, hboot, _, _, hgrp, _⟩ :=
    env_overrides_cli argvOverride envOverride stOverride (by rfl)
  refine ⟨r, hok, ?_, ?_, ?_, ?_, ?_, ?_⟩
  · exact (hca "0xENV" rfl (by decide)).1
  · exact (hca "0xENV" rfl (by decide)).2 (by rfl)
  · exact ((hboot "true" rfl (by decide)).1).trans (by decide)
  · exact (hboot "true" rfl (by decide)).2 (by rfl) (by decide)
  · exact ((hgrp "34000" rfl (by decide) (by decide)).1).trans (by decide)
  · exact (hgrp "34000" rfl (by decide) (by decide)).2.2 (by rfl)

/-! ### Seed-list builder (C9) -/

/-- Digits produced by the decimal renderer are ASCII digits. -/
theorem natDigitsAux_digits :
    ∀ fuel n acc, (∀ c ∈ acc, 48 ≤ c ∧ c ≤ 57) →
      ∀ c ∈ natDigitsAux fuel n acc, 48 ≤ c ∧ c ≤ 57 := by
  intro fuel
  induction fuel with
  | zero =>
    intro n acc hacc c hc
    rcases List.mem_cons.mp hc with h1 | h1
    · have := Nat.mod_lt n (show 0 < 10 by omega)
      omega
    · exact hacc c h1
  | succ m ih =>
    intro n acc hacc c hc
    rw [natDigitsAux] at hc
    by_cases h : n < 10
    · rw [if_pos h] at hc
      rcases List.mem_cons.mp hc with h1 | h1
      · omega
      · exact hacc c h1
    · rw [if_neg h] at hc
      refine ih (n / 10) _ ?_ c hc
      intro d hd
      rcases List.mem_cons.mp hd with h1 | h1
      · have := Nat.mod_lt n (show 0 < 10 by omega)
        omega
      · exact hacc d h1

/-- The decimal renderer never returns an empty digit list. -/
theorem natDigitsAux_ne_nil : ∀ fuel m acc, natDigitsAux fuel m acc ≠ [] := by
  intro fuel
  induction fuel with
  | zero => intro m acc; simp [natDigitsAux]
  | succ k ih =>
    intro m acc
    rw [natDigitsAux]
    by_cases h : m < 10
    · simp [h]
    · rw [if_neg h]
      exact ih _ _

theorem natToDec_ne_nil (n : Nat) : natToDec n ≠ [] := natDigitsAux_ne_nil n n []

/-- `splitByte` never returns an empty field list. -/
theorem splitByte_ne_nil (sep : Nat) (l : List Nat) : splitByte sep l ≠ [] := by
  induction l with
  | nil => simp [splitByte]
  | cons c rest ih =>
    rw [splitByte]
    by_cases h : c = sep
    · simp [h]
    · rw [if_neg h]
      cases hsb : splitByte sep rest with
      | nil => simp
      | cons f fs => simp

/-- No field of `splitByte` contains the separator. -/
theorem mem_splitByte_not_sep (sep : Nat) :
    ∀ l f, f ∈ splitByte sep l → sep ∉ f := by
  intro l
  induction l with
  | nil =>
    intro f hf
    simp [splitByte] at hf
    simp [hf]
  | cons c rest ih =>
    intro f hf
    rw [splitByte] at hf
    by_cases h : c = sep
    · rw [if_pos h] at hf
      rcases List.mem_cons.mp hf with h1 | h1
      · simp [h1]
      · exact ih f h1
    · rw [if_neg h] at hf
      cases hsb : splitByte sep rest with
      | nil => exact absurd hsb (splitByte_ne_nil sep rest)
      | cons g gs =>
        rw [hsb] at hf
        rcases List.mem_cons.mp hf with h1 | h1
        · subst h1
          intro hmem
          rcases List.mem_cons.mp hmem with h2 | h2
          · exact h h2.symm
          · exact ih g (hsb ▸ List.mem_cons_self g gs) h2
        · exact ih f (hsb ▸ List.mem_cons_of_mem g h1)

/-- A separator-free byte string is a single `splitByte` field. -/
theorem splitByte_of_not_mem (sep : Nat) :
    ∀ e, sep ∉ e → splitByte sep e = [e] := by
  intro e
  induction e with
  | nil => intro _; rfl
  | cons c rest ih =>
    intro h
    rw [splitByte, if_neg (fun hc => h (by simp [hc])),
      ih (fun hm => h (List.mem_cons_of_mem c hm))]

/-- `splitByte` peels one separator-free prefix. -/
theorem splitByte_append (sep : Nat) :
    ∀ a b, sep ∉ a → splitByte sep (a ++ sep :: b) = a :: splitByte sep b := by
  intro a
  induction a with
  | nil => intro b _; simp [splitByte]
  | cons c t ih =>
    intro b h
    rw [List.cons_append, splitByte, if_neg (fun hc => h (by simp [hc])),
      ih b (fun hm => h (List.mem_cons_of_mem c hm))]

/-- `strtok` fields are nonempty and separator-free. -/
theorem mem_strtokSplit (sep : Nat) (l t : List Nat) (h : t ∈ strtokSplit sep l) :
    t ≠ [] ∧ sep ∉ t := by
  unfold strtokSplit at h
  have h2 := List.of_mem_filter h
  refine ⟨by simpa using h2, mem_splitByte_not_sep sep l t (List.mem_of_mem_filter h)⟩

/-- `joinComma` over one added entry. -/
theorem joinComma_concat (acc : List (List Nat)) (e : List Nat) (h : acc ≠ []) :
    joinComma (acc ++ [e]) = joinComma acc ++ 44 :: e := by
  induction acc with
  | nil => exact absurd rfl h
  | cons x t ih =>
    cases t with
    | nil => rfl
    | cons y u =>
      have : joinComma (x :: y :: u) = x ++ 44 :: joinComma (y :: u) := rfl
      rw [List.cons_append, this]
      have h2 : joinComma ((y :: u) ++ [e]) = joinComma (y :: u) ++ 44 :: e :=
        ih (by simp)
      show x ++ 44 :: joinComma ((y :: u) ++ [e]) = _
      rw [h2]
      simp

/-- The joined buffer of well-formed entries is nonempty. -/
theorem joinComma_ne_nil (acc : List (List Nat)) (h : acc ≠ [])
    (he : ∀ e ∈ acc, e ≠ []) : joinComma acc ≠ [] := by
  cases acc with
  | nil => exact absurd rfl h
  | cons x t =>
    cases t with
    | nil => exact he x (by simp)
    | cons y u =>
      show x ++ 44 :: joinComma (y :: u) ≠ []
      simp

/-- Tokenizing the joined buffer recovers the entries. -/
theorem strtokSplit_joinComma (acc : List (List Nat)) (h : ∀ e ∈ acc, entryOk e) :
    strtokSplit 44 (joinComma acc) = acc := by
  induction acc with
  | nil => rfl
  | cons x t ih =>
    have hx := h x (by simp)
    cases t with
    | nil =>
      show strtokSplit 44 x = [x]
      unfold strtokSplit
      rw [splitByte_of_not_mem 44 x hx.2.1]
      simp [List.filter_cons, hx.1]
    | cons y u =>
      have hjoin : joinComma (x :: y :: u) = x ++ 44 :: joinComma (y :: u) := rfl
      rw [hjoin]
      unfold strtokSplit
      rw [splitByte_append 44 x (joinComma (y :: u)) hx.2.1]
      have ht := ih (fun e he2 => h e (List.mem_cons_of_mem x he2))
      unfold strtokSplit at ht
      simp only [List.filter]
      rw [show (!x.isEmpty) = true by simp [hx.1]]
      rw [ht]

/-- The head of a `dropWhile` result fails the predicate. -/
theorem head?_dropWhile_false (p : Nat → Bool) :
    ∀ (l : List Nat) (x : Nat), (l.dropWhile p).head? = some x → p x = false := by
  intro l
  induction l with
  | nil => intro x hx; simp [List.dropWhile] at hx
  | cons c t ih =>
    intro x hx
    rw [List.dropWhile_cons] at hx
    by_cases h : p c = true
    · rw [if_pos h] at hx
      exact ih x hx
    · have hc : p c = false := by revert h; cases p c <;> simp
      rw [if_neg (by simp [hc])] at hx
      simp only [List.head?_cons, Option.some.injEq] at hx
      rw [← hx]
      exact hc

/-- A suffix taken by `dropWhile` keeps the original last element. -/
theorem getLast?_dropWhile_of_ne_nil (p : Nat → Bool) (l : List Nat)
    (h : l.dropWhile p ≠ []) : (l.dropWhile p).getLast? = l.getLast? := by
  conv_rhs => rw [← List.takeWhile_append_dropWhile (p := p) (l := l)]
  exact (List.getLast?_append_of_ne_nil _ h).symm

/-- A trimmed token keeps only bytes of the token. -/
theorem trimSp_subset (tok : List Nat) : ∀ x ∈ trimSp tok, x ∈ tok := by
  intro x hx
  unfold trimSp at hx
  rw [List.mem_reverse] at hx
  have h1 := (List.dropWhile_sublist (l := (tok.dropWhile (fun c => c == 32)).reverse)
    (p := (fun c => c == 32))).subset hx
  rw [List.mem_reverse] at h1
  exact (List.dropWhile_sublist _).subset h1

/-- A nonempty trimmed token has no blank at either end. -/
theorem trimSp_edges (tok : List Nat) (h : trimSp tok ≠ []) :
    (trimSp tok).head? ≠ some 32 ∧ (trimSp tok).getLast? ≠ some 32 := by
  unfold trimSp at h ⊢
  set A := tok.dropWhile (fun c => c == 32) with hA
  set B := A.reverse.dropWhile (fun c => c == 32) with hB
  have hBne : B ≠ [] := by
    intro hb
    rw [hb] at h
    exact h rfl
  constructor
  · rw [List.head?_reverse]
    intro hlast
    have h1 : B.getLast? = A.reverse.getLast? := getLast?_dropWhile_of_ne_nil _ _ hBne
    rw [h1, List.getLast?_reverse] at hlast
    have := head?_dropWhile_false (fun c => c == 32) tok 32 (hA ▸ hlast)
    simp at this
  · rw [List.getLast?_reverse]
    intro hhead
    have := head?_dropWhile_false (fun c => c == 32) A.reverse 32 (hB ▸ hhead)
    simp at this

/-- A token whose ends carry no blank trims to itself. -/
theorem trimSp_eq_self (e : List Nat) (hne : e ≠ [])
    (h1 : e.head? ≠ some 32) (h2 : e.getLast? ≠ some 32) : trimSp e = e := by
  unfold trimSp
  have hd : e.dropWhile (fun c => c == 32) = e := by
    cases e with
    | nil => rfl
    | cons c t =>
      rw [List.dropWhile_cons, if_neg]
      simp only [List.head?_cons, ne_eq, Option.some.injEq] at h1
      simp [h1]
  rw [hd]
  have hrev : e.reverse.dropWhile (fun c => c == 32) = e.reverse := by
    cases hre : e.reverse with
    | nil => rfl
    | cons c t =>
      rw [List.dropWhile_cons, if_neg]
      have : e.reverse.head? = some c := by rw [hre]; rfl
      rw [List.head?_reverse] at this
      rw [this] at h2
      simp only [ne_eq, Option.some.injEq] at h2
      simp [h2]
  rw [hrev, List.reverse_reverse]

/-- The port-qualified entry built from a nonempty trimmed token is a
well-formed buffer entry. -/
theorem entryOk_withPortSpec (tok : List Nat) (port : Nat) (hcomma : 44 ∉ tok)
    (htt : trimSp tok ≠ []) : entryOk (withPortSpec (trimSp tok) port) := by
  have hedge := trimSp_edges tok htt
  have hsub := trimSp_subset tok
  have hcomma2 : 44 ∉ trimSp tok := fun hm => hcomma (hsub 44 hm)
  unfold withPortSpec
  by_cases hcol : 58 ∈ trimSp tok
  · rw [if_pos hcol]
    exact ⟨htt, hcomma2, hedge.1, hedge.2⟩
  · rw [if_neg hcol]
    refine ⟨by simp, ?_, ?_, ?_⟩
    · intro hm
      rcases List.mem_append.mp hm with hm | hm
      · exact hcomma2 hm
      · rcases List.mem_cons.mp hm with hm | hm
        · omega
        · have := natDigitsAux_digits port port [] (by simp) 44 hm
          omega
    · rw [List.head?_append_of_ne_nil _ htt]
      exact hedge.1
    · rw [List.getLast?_append_of_ne_nil _ (by simp : (58 :: natToDec port) ≠ [])]
      cases hnd : natToDec port with
      | nil => exact absurd hnd (natToDec_ne_nil port)
      | cons d ds =>
        rw [show (58 :: d :: ds : List Nat) = [58] ++ (d :: ds) from rfl,
          List.getLast?_append_of_ne_nil _ (by simp)]
        intro hlast
        have hd32 : (32 : Nat) ∈ natToDec port := by
          rw [hnd]
          exact List.mem_of_mem_getLast? hlast
        have := natDigitsAux_digits port port [] (by simp) 32 hd32
        omega

/-- Trimming distributes over the membership scan of well-trimmed
entries. -/
theorem any_trim_eq (acc : List (List Nat)) (x : List Nat)
    (h : ∀ e ∈ acc, trimSp e = e) :
    acc.any (fun tok => trimSp tok == x) = acc.any (fun tok => tok == x) := by
  induction acc with
  | nil => rfl
  | cons e t ih =>
    simp only [List.any_cons, h e (by simp)]
    rw [ih (fun f hf => h f (by simp [hf]))]

/-- `seed_in_list` over a joined buffer of well-formed entries is exactly
list membership. -/
theorem seed_in_list_spec (acc : List (List Nat)) (x : List Nat)
    (h : ∀ e ∈ acc, entryOk e) :
    seed_in_list (joinComma acc) x = decide (x ∈ acc) := by
  cases acc with
  | nil => simp [seed_in_list, joinComma]
  | cons e t =>
    have hne : joinComma (e :: t) ≠ [] :=
      joinComma_ne_nil _ (by simp) (fun f hf => (h f hf).1)
    unfold seed_in_list
    rw [if_neg (by simp [hne])]
    rw [strtokSplit_joinComma _ h]
    rw [any_trim_eq _ x (fun f hf =>
      trimSp_eq_self f (h f hf).1 (h f hf).2.2.1 (h f hf).2.2.2)]
    by_cases hx : x ∈ e :: t
    · rw [List.any_eq_true.mpr ⟨x, hx, by simp⟩, decide_eq_true hx]
    · rw [decide_eq_false hx]
      rw [List.any_eq_false]
      intro a ha
      simp only [beq_iff_eq]
      intro hax
      exact hx (hax ▸ ha)

/-- The truncation-free token loop refines the spec-level fold. -/
theorem bsAux_spec (port : Nat) :
    ∀ (toks : List (List Nat)) (acc : List (List Nat)),
      (∀ e ∈ acc, entryOk e) → (∀ t ∈ toks, 44 ∉ t) →
      bsAux port toks (joinComma acc) =
        joinComma (toks.foldl (fun acc tok =>
          let tt := trimSp tok
          if tt.isEmpty then acc
          else
            let e := withPortSpec tt port
            if e ∈ acc then acc else acc ++ [e]) acc) := by
  intro toks
  induction toks with
  | nil => intro acc _ _; rfl
  | cons tok rest ih =>
    intro acc hacc htoks
    simp only [bsAux, List.foldl_cons]
    by_cases htt : (trimSp tok).isEmpty = true
    · rw [if_pos htt, if_pos htt]
      exact ih acc hacc (fun t ht => htoks t (by simp [ht]))
    · have httne : trimSp tok ≠ [] := by
        intro hz
        exact htt (by simp [hz])
      have hok : entryOk (withPortSpec (trimSp tok) port) :=
        entryOk_withPortSpec tok port (htoks tok (by simp)) httne
      rw [if_neg htt, if_neg htt]
      rw [seed_in_list_spec acc _ hacc]
      by_cases hmem : withPortSpec (trimSp tok) port ∈ acc
      · rw [if_pos (by simp [hmem]), if_pos hmem]
        exact ih acc hacc (fun t ht => htoks t (by simp [ht]))
      · rw [if_neg (by simp [hmem]), if_neg hmem]
        have hbuf : (if (joinComma acc).isEmpty then withPortSpec (trimSp tok) port
            else joinComma acc ++ 44 :: withPortSpec (trimSp tok) port) =
            joinComma (acc ++ [withPortSpec (trimSp tok) port]) := by
          cases acc with
          | nil => simp [joinComma]
          | cons a u =>
            rw [joinComma_concat _ _ (by simp),
              if_neg (by simp [joinComma_ne_nil (a :: u) (by simp)
                (fun f hf => (hacc f hf).1)])]
        rw [hbuf]
        refine ih (acc ++ [withPortSpec (trimSp tok) port]) ?_
          (fun t ht => htoks t (by simp [ht]))
        intro f hf
        rcases List.mem_append.mp hf with hf | hf
        · exact hacc f hf
        · rw [List.mem_singleton.mp hf]
          exact hok

/-- The spec-level fold keeps the accumulated entry list duplicate
free. -/
theorem buildSeedsSpec_fold_nodup (port : Nat) :
    ∀ (toks : List (List Nat)) (acc : List (List Nat)), acc.Nodup →
      (toks.foldl (fun acc tok =>
        let tt := trimSp tok
        if tt.isEmpty then acc
        else
          let e := withPortSpec tt port
          if e ∈ acc then acc else acc ++ [e]) acc).Nodup := by
  intro toks
  induction toks with
  | nil => intro acc h; exact h
  | cons tok rest ih =>
    intro acc h
    simp only [List.foldl_cons]
    by_cases htt : (trimSp tok).isEmpty = true
    · rw [if_pos htt]
      exact ih acc h
    · rw [if_neg htt]
      by_cases hmem : withPortSpec (trimSp tok) port ∈ acc
      · rw [if_pos hmem]
        exact ih acc h
      · rw [if_neg hmem]
        refine ih _ ?_
        rw [List.nodup_append]
        exact ⟨h, List.nodup_singleton _, by simpa using hmem⟩

/-- Truncation through the 80-byte `seed_with_port` buffer never keeps
more than 79 bytes. -/
theorem withPort_length_le (t : List Nat) (port : Nat) :
    (withPort t port).length ≤ 79 := by
  unfold withPort
  split <;> (rw [List.length_take]; omega)

/-- The 80-byte buffer keeps at least one byte of a nonempty token. -/
theorem withPort_ne_nil (t : List Nat) (port : Nat) (h : t ≠ []) :
    withPort t port ≠ [] := by
  unfold withPort
  split
  · simp [List.take_eq_nil_iff, h]
  · simp [List.take_eq_nil_iff]

/-- For a token short enough for the `seed_with_port` buffer, the
truncating qualification agrees with the spec-level one. -/
theorem withPort_eq_spec (t : List Nat) (port : Nat) (h : noTruncTok t port) :
    withPort t port = withPortSpec t port := by
  unfold noTruncTok at h
  unfold withPort withPortSpec
  by_cases hc : 58 ∈ t
  · rw [if_pos hc] at h
    rw [if_pos hc, if_pos hc]
    exact List.take_of_length_le (by omega)
  · rw [if_neg hc] at h
    rw [if_neg hc, if_neg hc]
    refine List.take_of_length_le ?_
    simp only [List.length_append, List.length_cons]
    omega

/-- The truncation-free token loop only grows the buffer. -/
theorem bsAux_length_le (port : Nat) :
    ∀ (toks : List (List Nat)) (buf : List Nat),
      buf.length ≤ (bsAux port toks buf).length := by
  intro toks
  induction toks with
  | nil => intro buf; exact Nat.le_refl _
  | cons tok rest ih =>
    intro buf
    simp only [bsAux]
    by_cases htt : (trimSp tok).isEmpty = true
    · rw [if_pos htt]; exact ih buf
    · rw [if_neg htt]
      by_cases hin : seed_in_list buf (withPortSpec (trimSp tok) port) = true
      · rw [if_pos hin]; exact ih buf
      · rw [if_neg hin]
        refine le_trans ?_ (ih _)
        by_cases hbe : buf.isEmpty = true
        · rw [if_pos hbe]
          simp only [List.isEmpty_iff] at hbe
          simp [hbe]
        · rw [if_neg hbe]
          simp only [List.length_append, List.length_cons]
          omega

/-- As long as every token fits the `seed_with_port` buffer and the
accumulated list stays within the seeds buffer's 4095 content bytes, the
faithful `snprintf` loop computes exactly the truncation-free loop, and
its running `len` is the true buffer length. -/
theorem bsAuxT_eq (port : Nat) :
    ∀ (toks : List (List Nat)) (buf : List Nat),
      (∀ tok ∈ toks, trimSp tok ≠ [] → noTruncTok (trimSp tok) port) →
      (bsAux port toks buf).length ≤ 4095 →
      bsAuxT port toks (buf, buf.length) =
        (bsAux port toks buf, (bsAux port toks buf).length) := by
  intro toks
  induction toks with
  | nil => intro buf _ _; rfl
  | cons tok rest ih =>
    intro buf hshort hbound
    have hrs : ∀ t ∈ rest, trimSp t ≠ [] → noTruncTok (trimSp t) port :=
      fun t ht => hshort t (by simp [ht])
    by_cases htt : (trimSp tok).isEmpty = true
    · have e1 : bsAuxT port (tok :: rest) (buf, buf.length) =
          bsAuxT port rest (buf, buf.length) := by
        simp only [bsAuxT]; rw [if_pos htt]
      have e2 : bsAux port (tok :: rest) buf = bsAux port rest buf := by
        simp only [bsAux]; rw [if_pos htt]
      rw [e1, e2]
      rw [e2] at hbound
      exact ih buf hrs hbound
    · have httne : trimSp tok ≠ [] := fun hz => htt (by simp [hz])
      have hnt := hshort tok (by simp) httne
      have hswp : withPort (trimSp tok) port = withPortSpec (trimSp tok) port :=
        withPort_eq_spec _ _ hnt
      have hswplen : (withPortSpec (trimSp tok) port).length ≤ 79 := by
        rw [← hswp]; exact withPort_length_le _ _
      have hswpnn : withPortSpec (trimSp tok) port ≠ [] := by
        rw [← hswp]; exact withPort_ne_nil _ _ httne
      by_cases hin : seed_in_list buf (withPortSpec (trimSp tok) port) = true
      · have e1 : bsAuxT port (tok :: rest) (buf, buf.length) =
            bsAuxT port rest (buf, buf.length) := by
          simp only [bsAuxT]; rw [if_neg htt, hswp, if_pos hin]
        have e2 : bsAux port (tok :: rest) buf = bsAux port rest buf := by
          simp only [bsAux]; rw [if_neg htt, if_pos hin]
        rw [e1, e2]
        rw [e2] at hbound
        exact ih buf hrs hbound
      · by_cases hbe : buf.isEmpty = true
        · have hbuf : buf = [] := by simpa using hbe
          subst hbuf
          have hstate : snprintfCat [] 0 (withPortSpec (trimSp tok) port) =
              (withPortSpec (trimSp tok) port,
                (withPortSpec (trimSp tok) port).length) := by
            unfold snprintfCat
            have htk : List.take (4096 - 0 - 1) (withPortSpec (trimSp tok) port) =
                withPortSpec (trimSp tok) port :=
              List.take_of_length_le (by omega)
            simp [htk]
          have e1 : bsAuxT port (tok :: rest)
              (([] : List Nat), List.length ([] : List Nat)) =
              bsAuxT port rest (withPortSpec (trimSp tok) port,
                (withPortSpec (trimSp tok) port).length) := by
            simp only [bsAuxT]
            rw [if_neg htt, hswp, if_neg hin, if_neg (by simp)]
            dsimp only [List.length_nil]
            rw [hstate]
          have e2 : bsAux port (tok :: rest) [] =
              bsAux port rest (withPortSpec (trimSp tok) port) := by
            simp only [bsAux]
            rw [if_neg htt, if_neg hin]
            simp
          rw [e1, e2]
          rw [e2] at hbound
          exact ih _ hrs hbound
        · have hbne : buf ≠ [] := by simpa using hbe
          have e2 : bsAux port (tok :: rest) buf =
              bsAux port rest (buf ++ 44 :: withPortSpec (trimSp tok) port) := by
            simp only [bsAux]
            rw [if_neg htt, if_neg hin, if_neg hbe]
          have hgrow := bsAux_length_le port rest
            (buf ++ 44 :: withPortSpec (trimSp tok) port)
          rw [e2] at hbound
          have hlen : buf.length + 1 + (withPortSpec (trimSp tok) port).length ≤ 4095 := by
            have h2 := le_trans hgrow hbound
            simp only [List.length_append, List.length_cons] at h2
            omega
          have hc1 : snprintfCat buf buf.length [44] = (buf ++ [44], buf.length + 1) := by
            unfold snprintfCat
            rw [if_pos rfl, List.take_of_length_le (by simp; omega)]
            simp
          have hc2 : snprintfCat (buf ++ [44]) (buf.length + 1)
              (withPortSpec (trimSp tok) port) =
              (buf ++ 44 :: withPortSpec (trimSp tok) port,
                (buf ++ 44 :: withPortSpec (trimSp tok) port).length) := by
            unfold snprintfCat
            rw [if_pos (by simp), List.take_of_length_le (by simp; omega)]
            simp only [List.append_assoc, List.singleton_append, Prod.mk.injEq, true_and]
            simp only [List.length_append, List.length_cons]
            omega
          have e1 : bsAuxT port (tok :: rest) (buf, buf.length) =
              bsAuxT port rest (buf ++ 44 :: withPortSpec (trimSp tok) port,
                (buf ++ 44 :: withPortSpec (trimSp tok) port).length) := by
            simp only [bsAuxT]
            rw [if_neg htt, hswp, if_neg hin,
              if_pos (by simpa using List.length_pos.mpr hbne), hc1]
            rw [hc2]
          rw [e1, e2]
          exact ih _ hrs hbound

/-- **C9** (amended): in the truncation-free regime — every trimmed
token's port-qualified form fits the 80-byte `seed_with_port` buffer,
and the joined spec-level output fits the 4096-byte seeds buffer's 4095
content bytes — the builder trims each comma token, qualifies it with
the coordination port when no `:port` suffix is present, and appends it
only when not already present (exact match): the buffer computation
equals the spec-level fold, whose output has no duplicates; on
`"10.0.0.1,10.0.0.1:33061"` with port 33061 it yields exactly the
single entry `"10.0.0.1:33061"`.  Without the bounds the normalization
claim fails by `seeds_truncation_cex`. -/
theorem seeds_dedup_normalize :
    (∀ extra port,
      (∀ tok ∈ strtokSplit 44 extra, trimSp tok ≠ [] → noTruncTok (trimSp tok) port) →
      (joinComma (buildSeedsSpec extra port)).length ≤ 4095 →
      build_seeds_list extra port = joinComma (buildSeedsSpec extra port)) ∧
    (∀ extra port, (buildSeedsSpec extra port).Nodup) ∧
    build_seeds_list seedsExampleInput 33061 = seedsExampleEntry ∧
    buildSeedsSpec seedsExampleInput 33061 = [seedsExampleEntry] := by
  refine ⟨?_, ?_, by decide, by decide⟩
  · intro extra port hshort hbound
    by_cases hext : extra.isEmpty = true
    · unfold build_seeds_list buildSeedsSpec
      simp [hext, joinComma]
    · have hspec : bsAux port (strtokSplit 44 extra) [] =
          joinComma (buildSeedsSpec extra port) := by
        unfold buildSeedsSpec
        rw [if_neg (by simp [hext])]
        have h := bsAux_spec port (strtokSplit 44 extra) [] (by simp)
          (fun t ht => (mem_strtokSplit 44 extra t ht).2)
        have h0 : joinComma ([] : List (List Nat)) = [] := rfl
        rw [h0] at h
        exact h
      have hb2 : (bsAux port (strtokSplit 44 extra) []).length ≤ 4095 := by
        rw [hspec]; exact hbound
      unfold build_seeds_list
      rw [if_neg (by simp [hext])]
      have he := bsAuxT_eq port (strtokSplit 44 extra) [] hshort hb2
      show (bsAuxT port (strtokSplit 44 extra)
        (([] : List Nat), List.length ([] : List Nat))).1 =
        joinComma (buildSeedsSpec extra port)
      rw [he]
      exact hspec
  · intro extra port
    unfold buildSeedsSpec
    by_cases hext : extra.isEmpty = true
    · simp [hext]
    · rw [if_neg (by simp [hext])]
      exact buildSeedsSpec_fold_nodup port (strtokSplit 44 extra) [] (List.nodup_nil)

/-- **C9** counterexample: on a single colon-free token of 80 `'a'`
bytes the builder does not normalize as the claim states — the
qualified entry is `snprintf`-cut to the token's first 79 bytes, losing
the appended `:33061` — so the buffer differs from the spec-level
fold's single entry `aaaa…a:33061`. -/
theorem seeds_truncation_cex :
    build_seeds_list (List.replicate 80 97) 33061 ≠
      joinComma (buildSeedsSpec (List.replicate 80 97) 33061) := by decide

/-- Closed instance of the amended C9 equality at the spec's own
example `"10.0.0.1,10.0.0.1:33061"`, port 33061. -/
theorem seeds_dedup_normalize_witness :
    build_seeds_list seedsExampleInput 33061 =
      joinComma (buildSeedsSpec seedsExampleInput 33061) :=
  seeds_dedup_normalize.1 seedsExampleInput 33061
    (by simp only [noTruncTok]; decide) (by decide)

/-! ### Group-name resolution and the bootstrap pipeline (C8, C10) -/

/-- Truncation to 36 characters preserves nonemptiness. -/
theorem strTake36_ne_empty (s : String) (h : s ≠ "") : strTake36 s ≠ "" := by
  intro he
  apply h
  have hdata : s.data.take 36 = [] := congrArg String.data he
  rcases List.take_eq_nil_iff.mp hdata with h36 | hnil
  · omega
  · cases s
    simp_all

/-- The generated UUID string is never empty. -/
theorem uuidString_ne_empty (r : List Nat) : uuidString r ≠ "" := by
  intro he
  have hdata := congrArg String.data he
  simp [uuidString, generate_uuid, byteHex] at hdata

/-- With no name from the command line, the environment or the persisted
file, `get_or_create_gr_group_name` generates and persists a fresh UUID,
regardless of the bootstrap flag. -/
theorem gn_resolve_generated (cli envv : Option String) (rand : List Nat) (b : Bool)
    (hcli : cli = none ∨ cli = some "") (henv : envv = none ∨ envv = some "") :
    get_or_create_gr_group_name cli envv none rand b =
      (uuidString rand, [.groupNameFile, .groupNamePlaintext]) := by
  have hc : optNonempty cli = false := by rcases hcli with h | h <;> simp [h, optNonempty]
  have he : optNonempty envv = false := by rcases henv with h | h <;> simp [h, optNonempty]
  unfold get_or_create_gr_group_name
  rw [if_neg (by simp [hc]), if_neg (by simp [he])]

/-- The resolved group name is never empty, whatever the sources hold. -/
theorem gn_resolve_ne_empty (cli envv stored : Option String) (rand : List Nat) (b : Bool) :
    (get_or_create_gr_group_name cli envv stored rand b).1 ≠ "" := by
  unfold get_or_create_gr_group_name
  by_cases hc : optNonempty cli = true
  · rw [if_pos hc]
    cases cli with
    | none => simp [optNonempty] at hc
    | some c =>
      simp only [optNonempty, Bool.not_eq_eq_eq_not, Bool.not_true, beq_eq_false_iff_ne,
        ne_eq] at hc
      exact strTake36_ne_empty c hc
  · rw [if_neg hc]
    by_cases he : optNonempty envv = true
    · rw [if_pos he]
      cases envv with
      | none => simp [optNonempty] at he
      | some e =>
        exact strTake36_ne_empty e (by simpa [optNonempty] using he)
    · rw [if_neg he]
      cases stored with
      | none => exact uuidString_ne_empty rand
      | some line =>
        by_cases hl : strTake36 line = ""
        · simp only [hl, if_pos]
          simpa using uuidString_ne_empty rand
        · simp only [if_neg hl]
          exact hl

/-- C10: group-name resolution always yields a non-empty name — with no
source anywhere a fresh UUID is generated and persisted, independently of
the bootstrap flag — so the pipeline's Group Replication branch is taken
on every run that reaches it (`grEnabled` is never `some false`). -/
theorem group_name_always_resolves :
    (∀ cli envv stored rand b,
       (get_or_create_gr_group_name cli envv stored rand b).1 ≠ "") ∧
    (∀ cli envv stored rand b1 b2,
       get_or_create_gr_group_name cli envv stored rand b1 =
         get_or_create_gr_group_name cli envv stored rand b2) ∧
    (∀ cli envv rand b, (cli = none ∨ cli = some "") → (envv = none ∨ envv = some "") →
       get_or_create_gr_group_name cli envv none rand b =
         (uuidString rand, [.groupNameFile, .groupNamePlaintext])) ∧
    (∀ cfg w, (runFromConfig cfg w).grEnabled ≠ some false) := by
  refine ⟨gn_resolve_ne_empty, ?_, ?_, ?_⟩
  · intro cli envv stored rand b1 b2
    rfl
  · intro cli envv rand b hcli henv
    exact gn_resolve_generated cli envv rand b hcli henv
  · intro cfg w h
    unfold runFromConfig at h
    dsimp only at h
    have hne := gn_resolve_ne_empty cfg.gr_group_name (w.env "MYSQL_GR_GROUP_NAME")
      w.storedGroupName w.randBytes cfg.gr_bootstrap
    cases hm : negotiate_port w.probe
        (if 0 < cfg.mysql_port then cfg.mysql_port.toNat else 3306)
        cfg.mysql_port_specified with
    | none => rw [hm] at h; simp at h
    | some p1 =>
      rw [hm] at h
      cases hg : negotiate_port w.probe cfg.gr_port.toNat cfg.gr_port_specified with
      | none => rw [hg] at h; simp at h
      | some p2 =>
        rw [hg] at h
        repeat' split at h
        all_goals simp_all

/-- Witness for C10 at all-zero random bytes. -/
theorem group_name_always_resolves_witness :
    get_or_create_gr_group_name none none none (List.replicate 16 0) true =
      (uuidString (List.replicate 16 0), [.groupNameFile, .groupNamePlaintext]) ∧
    (get_or_create_gr_group_name none none none (List.replicate 16 0) false).1 ≠ "" ∧
    (runFromConfig {} joinWorld).grEnabled ≠ some false := by
  refine ⟨?_, ?_, ?_⟩
  · exact group_name_always_resolves.2.2.1 none none (List.replicate 16 0) true
      (Or.inl rfl) (Or.inl rfl)
  · exact group_name_always_resolves.1 none none none (List.replicate 16 0) false
  · exact group_name_always_resolves.2.2.2 {} joinWorld

/-- Counterexample to C8: in the end-to-end join-mode scenario (no group
name anywhere, `bootstrap=false`, no seeds, empty data directory, free
ports) the run does exit fatally with status 1 — but only after writing
to persistent storage: the template copy and the persisted auto-generated
group name (and its plaintext mirror) all precede the exit. -/
theorem join_exit_after_writes_cex :
    runFromConfig {} joinWorld =
      { events := [.mkdirs, .copyTemplate, .groupNameFile, .groupNamePlaintext]
        exit := some 1
        grEnabled := some true } ∧
    ({} : LauncherConfig).gr_group_name = none ∧
    ({} : LauncherConfig).gr_bootstrap = false ∧
    ({} : LauncherConfig).gr_seeds = none ∧
    joinWorld.env "MYSQL_GR_GROUP_NAME" = none ∧
    joinWorld.storedGroupName = none ∧
    ([FsEvent.mkdirs, .copyTemplate, .groupNameFile, .groupNamePlaintext] ≠ ([] : List FsEvent)) := by
  exact ⟨by rfl, rfl, rfl, rfl, rfl, rfl, by decide⟩

/-- C8 amended: with no group name from any source, `bootstrap=false` and
no seeds, the run exits fatally with status 1 at the join-mode seeds
check — but not before persistent writes: the freshly generated group
name has already been persisted (with its plaintext mirror), after the
directory creation and any template materialization. -/
theorem join_mode_requires_seeds (cfg : LauncherConfig) (w : World)
    (hgn : cfg.gr_group_name = none ∨ cfg.gr_group_name = some "")
    (henv : w.env "MYSQL_GR_GROUP_NAME" = none ∨ w.env "MYSQL_GR_GROUP_NAME" = some "")
    (hfile : w.storedGroupName = none)
    (hboot : cfg.gr_bootstrap = false)
    (hseeds : cfg.gr_seeds = none ∨ cfg.gr_seeds = some "")
    (hmp : negotiate_port w.probe (if 0 < cfg.mysql_port then cfg.mysql_port.toNat else 3306)
      cfg.mysql_port_specified ≠ none)
    (hgp : negotiate_port w.probe cfg.gr_port.toNat cfg.gr_port_specified ≠ none)
    (hcopy : w.templateCopyOk = true) :
    (runFromConfig cfg w).exit = some 1 ∧
    FsEvent.groupNameFile ∈ (runFromConfig cfg w).events ∧
    FsEvent.groupNamePlaintext ∈ (runFromConfig cfg w).events ∧
    (runFromConfig cfg w).grEnabled = some true := by
  obtain ⟨p1, hp1⟩ := Option.ne_none_iff_exists'.mp hmp
  obtain ⟨p2, hp2⟩ := Option.ne_none_iff_exists'.mp hgp
  have hgen := gn_resolve_generated cfg.gr_group_name (w.env "MYSQL_GR_GROUP_NAME")
    w.randBytes cfg.gr_bootstrap hgn henv
  have hsd : optNonempty cfg.gr_seeds = false := by
    rcases hseeds with h | h <;> simp [h, optNonempty]
  unfold runFromConfig
  dsimp only
  rw [hp1, hp2, if_neg (by simp [hcopy]), hfile, hgen]
  rw [dif_neg (by simpa using uuidString_ne_empty w.randBytes)]
  rw [if_pos (by simp [hboot, hsd])]
  refine ⟨rfl, ?_, ?_, rfl⟩ <;> simp

/-- Witness for the amended C8 in the concrete join-mode world. -/
theorem join_mode_requires_seeds_witness :
    (runFromConfig {} joinWorld).exit = some 1 ∧
    FsEvent.groupNameFile ∈ (runFromConfig {} joinWorld).events ∧
    FsEvent.groupNamePlaintext ∈ (runFromConfig {} joinWorld).events ∧
    (runFromConfig {} joinWorld).grEnabled = some true := by
  exact join_mode_requires_seeds {} joinWorld (Or.inl rfl) (Or.inl rfl) rfl rfl (Or.inl rfl)
    (by decide) (by decide) rfl

/-! ### Whitelist merge (C5) -/

/-- `rule_exists` decides membership in the rule list. -/
theorem rule_exists_iff (c : WhitelistCsv) (r : Rule) :
    rule_exists c r = true ↔ r ∈ rules c := by
  simp [rule_exists, rules, List.any_eq_true]

/-- The merge loop never changes a destination that already contains
every source rule. -/
theorem merge_foldl_fixed :
    ∀ (rs : List Rule) (d : WhitelistCsv), (∀ r ∈ rs, rule_exists d r = true) →
      rs.foldl (fun d r => if rule_exists d r then d else appendRule d r) d = d := by
  intro rs
  induction rs with
  | nil => intro d _; rfl
  | cons r t ih =>
    intro d h
    simp only [List.foldl_cons, if_pos (h r (by simp))]
    exact ih d (fun x hx => h x (by simp [hx]))

/-- A uniform table has as many rules as its common column length. -/
theorem maxCount_uniform (c : WhitelistCsv) (n : Nat) (h : uniformCsv c n) :
    maxCount c = n := by
  obtain ⟨h0, h1, h2, h3, h4⟩ := h
  simp [maxCount, h0, h1, h2, h3, h4]

/-- Cells of a column of short cells are short (padding included). -/
theorem cellAt_short (l : List Cell) (i : Nat) (h : ∀ v ∈ l, v.length ≤ 127) :
    (cellAt l i).length ≤ 127 := by
  unfold cellAt
  by_cases hi : i < l.length
  · rw [List.getD_eq_getElem l cellZero hi]
    exact h _ (List.getElem_mem hi)
  · rw [List.getD_eq_default l cellZero (by omega)]
    simp [cellZero]

/-- All rules of a table of short cells are short. -/
theorem rules_short (c : WhitelistCsv) (h : shortCellsCsv c) :
    ∀ r ∈ rules c, ruleShort r := by
  intro r hr
  obtain ⟨i, _, rfl⟩ := List.mem_map.mp hr
  have h0 : ∀ v ∈ c.l0, v.length ≤ 127 := fun v hv => h v (by simp [hv])
  have h1 : ∀ v ∈ c.l1, v.length ≤ 127 := fun v hv => h v (by simp [hv])
  have h2 : ∀ v ∈ c.l2, v.length ≤ 127 := fun v hv => h v (by simp [hv])
  have h3 : ∀ v ∈ c.l3, v.length ≤ 127 := fun v hv => h v (by simp [hv])
  have h4 : ∀ v ∈ c.l4, v.length ≤ 127 := fun v hv => h v (by simp [hv])
  exact ⟨cellAt_short _ _ h0, cellAt_short _ _ h1, cellAt_short _ _ h2,
    cellAt_short _ _ h3, cellAt_short _ _ h4⟩

/-- Appending one short rule to an in-capacity uniform table appends it
to the rule list and preserves uniformity. -/
theorem rules_appendRule (c : WhitelistCsv) (n : Nat) (r : Rule)
    (hu : uniformCsv c n) (hn : n < 256) (hr : ruleShort r) :
    rules (appendRule c r) = rules c ++ [r] ∧ uniformCsv (appendRule c r) (n + 1) := by
  obtain ⟨h0, h1, h2, h3, h4⟩ := hu
  obtain ⟨s0, s1, s2, s3, s4⟩ := hr
  have hc0 : appendCell c.l0 r.1 = c.l0 ++ [r.1] := by
    rw [appendCell, if_pos (by omega), List.take_of_length_le s0]
  have hc1 : appendCell c.l1 r.2.1 = c.l1 ++ [r.2.1] := by
    rw [appendCell, if_pos (by omega), List.take_of_length_le s1]
  have hc2 : appendCell c.l2 r.2.2.1 = c.l2 ++ [r.2.2.1] := by
    rw [appendCell, if_pos (by omega), List.take_of_length_le s2]
  have hc3 : appendCell c.l3 r.2.2.2.1 = c.l3 ++ [r.2.2.2.1] := by
    rw [appendCell, if_pos (by omega), List.take_of_length_le s3]
  have hc4 : appendCell c.l4 r.2.2.2.2 = c.l4 ++ [r.2.2.2.2] := by
    rw [appendCell, if_pos (by omega), List.take_of_length_le s4]
  have huni : uniformCsv (appendRule c r) (n + 1) := by
    unfold appendRule uniformCsv
    simp [hc0, hc1, hc2, hc3, hc4, h0, h1, h2, h3, h4]
  refine ⟨?_, huni⟩
  have hmax : maxCount (appendRule c r) = n + 1 := maxCount_uniform _ _ huni
  have hmaxc : maxCount c = n := maxCount_uniform _ _ ⟨h0, h1, h2, h3, h4⟩
  unfold rules
  rw [hmax, hmaxc, List.range_succ, List.map_append]
  congr 1
  · apply List.map_congr_left
    intro i hi
    have hilt : i < n := List.mem_range.mp hi
    unfold ruleAt appendRule
    simp only [hc0, hc1, hc2, hc3, hc4]
    unfold cellAt
    rw [List.getD_append _ _ _ _ (by omega), List.getD_append _ _ _ _ (by omega),
      List.getD_append _ _ _ _ (by omega), List.getD_append _ _ _ _ (by omega),
      List.getD_append _ _ _ _ (by omega)]
  · simp only [List.map_cons, List.map_nil]
    congr 1
    unfold ruleAt appendRule
    simp only [hc0, hc1, hc2, hc3, hc4]
    unfold cellAt
    rw [show n = c.l0.length from h0.symm]
    rw [List.getD_append_right _ _ _ _ (le_refl _)]
    rw [show c.l0.length = c.l1.length from by omega]
    rw [List.getD_append_right _ _ _ _ (le_refl _)]
    rw [show c.l1.length = c.l2.length from by omega]
    rw [List.getD_append_right _ _ _ _ (le_refl _)]
    rw [show c.l2.length = c.l3.length from by omega]
    rw [List.getD_append_right _ _ _ _ (le_refl _)]
    rw [show c.l3.length = c.l4.length from by omega]
    rw [List.getD_append_right _ _ _ _ (le_refl _)]
    simp

/-- The merge loop computes, in rule-set terms, the union of destination
and source rules — for uniform destinations within capacity. -/
theorem merge_foldl_rules :
    ∀ (rs : List Rule) (d : WhitelistCsv) (n : Nat),
      uniformCsv d n → n + rs.length ≤ 256 → (∀ r ∈ rs, ruleShort r) →
      ∃ m, uniformCsv (rs.foldl (fun d r => if rule_exists d r then d else appendRule d r) d) m ∧
        ∀ x, x ∈ rules (rs.foldl (fun d r => if rule_exists d r then d else appendRule d r) d) ↔
          x ∈ rules d ∨ x ∈ rs := by
  intro rs
  induction rs with
  | nil =>
    intro d n hu _ _
    exact ⟨n, hu, fun x => by simp⟩
  | cons r t ih =>
    intro d n hu hcap hshort
    by_cases hex : rule_exists d r = true
    · have hrd : r ∈ rules d := (rule_exists_iff d r).mp hex
      simp only [List.foldl_cons, if_pos hex]
      obtain ⟨m, hm, hiff⟩ := ih d n hu (by simp at hcap ⊢; omega)
        (fun x hx => hshort x (by simp [hx]))
      refine ⟨m, hm, fun x => ?_⟩
      rw [hiff x]
      constructor
      · rintro (h | h)
        · exact Or.inl h
        · exact Or.inr (List.mem_cons_of_mem r h)
      · rintro (h | h)
        · exact Or.inl h
        · rcases List.mem_cons.mp h with h | h
          · exact Or.inl (h ▸ hrd)
          · exact Or.inr h
    · simp only [List.foldl_cons, if_neg hex]
      have hn : n < 256 := by simp at hcap; omega
      obtain ⟨hrules, huni⟩ := rules_appendRule d n r hu hn (hshort r (by simp))
      obtain ⟨m, hm, hiff⟩ := ih (appendRule d r) (n + 1) huni
        (by simp at hcap ⊢; omega) (fun x hx => hshort x (by simp [hx]))
      refine ⟨m, hm, fun x => ?_⟩
      rw [hiff x, hrules]
      simp only [List.mem_append, List.mem_cons, List.not_mem_nil, or_false]
      exact or_assoc

/-- Counterexample to C5: with the ragged tables `raggedA` (columns
`["a","c"]`, `["b"]`) and `raggedB` (columns `["x"]`, `["y"]`), the rule
`("c","y","0","0","0")` appears in `merge(raggedA, raggedB)` but not in
`merge(raggedB, raggedA)`: the rule sets of the two merge orders
differ. -/
theorem whitelist_merge_commutativity_cex :
    cexRule ∈ rules (merge_whitelists raggedA raggedB) ∧
    cexRule ∉ rules (merge_whitelists raggedB raggedA) := by
  constructor <;> decide

/-- C5 amended: merge is unconditionally idempotent
(`merge(A, A) = A`), and commutative in rule content provided both
tables are uniform (all five columns of equal length — no ragged short
columns, whose appends corrupt rule alignment), all cells are within the
127-byte cell capacity, and the combined rule count stays within the
256-rules-per-column capacity; a source rule is appended only when no
destination rule equals it in every column (the `rule_exists` guard). -/
theorem whitelist_merge_idempotent_commutative :
    (∀ A, merge_whitelists A A = A) ∧
    (∀ A B nA nB, uniformCsv A nA → uniformCsv B nB →
       shortCellsCsv A → shortCellsCsv B → nA + nB ≤ 256 →
       ∀ x, x ∈ rules (merge_whitelists A B) ↔ x ∈ rules (merge_whitelists B A)) := by
  constructor
  · intro A
    exact merge_foldl_fixed (rules A) A (fun r hr => (rule_exists_iff A r).mpr hr)
  · intro A B nA nB huA huB hsA hsB hcap x
    have hlenB : (rules B).length = nB := by
      simp [rules, maxCount_uniform B nB huB]
    have hlenA : (rules A).length = nA := by
      simp [rules, maxCount_uniform A nA huA]
    obtain ⟨m1, _, h1⟩ := merge_foldl_rules (rules B) A nA huA
      (by omega) (rules_short B hsB)
    obtain ⟨m2, _, h2⟩ := merge_foldl_rules (rules A) B nB huB
      (by omega) (rules_short A hsA)
    unfold merge_whitelists
    rw [h1 x, h2 x]
    tauto

/-- Witness for C5: idempotence at the ragged table, commutativity at the
two uniform one-rule tables. -/
theorem whitelist_merge_idempotent_commutative_witness :
    merge_whitelists raggedA raggedA = raggedA ∧
    uniformCsv uniA 1 ∧ uniformCsv uniB 1 ∧
    (ruleAt uniB 0 ∈ rules (merge_whitelists uniA uniB) ↔
      ruleAt uniB 0 ∈ rules (merge_whitelists uniB uniA)) := by
  refine ⟨whitelist_merge_idempotent_commutative.1 raggedA,
    by unfold uniformCsv; decide, by unfold uniformCsv; decide, ?_⟩
  exact whitelist_merge_idempotent_commutative.2 uniA uniB 1 1
    (by unfold uniformCsv; decide) (by unfold uniformCsv; decide)
    (by unfold shortCellsCsv; decide) (by unfold shortCellsCsv; decide)
    (by omega) (ruleAt uniB 0)

theorem b64dc_b64ec : ∀ v, v < 64 → b64dc (b64ec v) = some v := by decide

theorem b64ec_not_skip : ∀ v, v < 64 →
    ¬(b64ec v = 61 ∨ b64ec v = 10 ∨ b64ec v = 13 ∨ b64ec v = 32) := by decide

set_option maxHeartbeats 2000000 in
/-- Decoding the (padding-free, zero-filled) encoder output recovers the
input bytes followed by the zero bytes of the last 24-bit group: one
extra NUL for a 2-byte tail, two for a 1-byte tail. -/
theorem b64_roundtrip : ∀ (l : List Nat), (∀ x ∈ l, x < 256) →
    ∀ buf, b64decAux (base64_encode l) buf 0 =
      some (l ++ List.replicate ((3 - l.length % 3) % 3) 0) := by
  intro l
  induction l using base64_encode.induct with
  | case1 => intro _ buf; rfl
  | case2 a =>
    intro hl buf
    have hv1 := b64dc_b64ec (a * 65536 / 262144 % 64) (Nat.mod_lt _ (by norm_num))
    have hv2 := b64dc_b64ec (a * 65536 / 4096 % 64) (Nat.mod_lt _ (by norm_num))
    have hv3 := b64dc_b64ec (a * 65536 / 64 % 64) (Nat.mod_lt _ (by norm_num))
    have hv4 := b64dc_b64ec (a * 65536 % 64) (Nat.mod_lt _ (by norm_num))
    have hs1 := b64ec_not_skip (a * 65536 / 262144 % 64) (Nat.mod_lt _ (by norm_num))
    have hs2 := b64ec_not_skip (a * 65536 / 4096 % 64) (Nat.mod_lt _ (by norm_num))
    have hs3 := b64ec_not_skip (a * 65536 / 64 % 64) (Nat.mod_lt _ (by norm_num))
    have hs4 := b64ec_not_skip (a * 65536 % 64) (Nat.mod_lt _ (by norm_num))
    have ha : a < 256 := hl a (by simp)
    simp only [base64_encode, b64decAux, hs1, hs2, hs3, hs4, hv1, hv2, hv3, hv4,
      if_false, if_true]
    norm_num [List.replicate]
    omega
  | case3 a b =>
    intro hl buf
    have hv1 := b64dc_b64ec ((a * 65536 + b * 256) / 262144 % 64) (Nat.mod_lt _ (by norm_num))
    have hv2 := b64dc_b64ec ((a * 65536 + b * 256) / 4096 % 64) (Nat.mod_lt _ (by norm_num))
    have hv3 := b64dc_b64ec ((a * 65536 + b * 256) / 64 % 64) (Nat.mod_lt _ (by norm_num))
    have hv4 := b64dc_b64ec ((a * 65536 + b * 256) % 64) (Nat.mod_lt _ (by norm_num))
    have hs1 := b64ec_not_skip ((a * 65536 + b * 256) / 262144 % 64) (Nat.mod_lt _ (by norm_num))
    have hs2 := b64ec_not_skip ((a * 65536 + b * 256) / 4096 % 64) (Nat.mod_lt _ (by norm_num))
    have hs3 := b64ec_not_skip ((a * 65536 + b * 256) / 64 % 64) (Nat.mod_lt _ (by norm_num))
    have hs4 := b64ec_not_skip ((a * 65536 + b * 256) % 64) (Nat.mod_lt _ (by norm_num))
    have ha : a < 256 := hl a (by simp)
    have hb : b < 256 := hl b (by simp)
    simp only [base64_encode, b64decAux, hs1, hs2, hs3, hs4, hv1, hv2, hv3, hv4,
      if_false, if_true]
    norm_num [List.replicate]
    omega
  | case4 a b c rest ih =>
    intro hl buf
    have hv1 := b64dc_b64ec ((a * 65536 + b * 256 + c) / 262144 % 64) (Nat.mod_lt _ (by norm_num))
    have hv2 := b64dc_b64ec ((a * 65536 + b * 256 + c) / 4096 % 64) (Nat.mod_lt _ (by norm_num))
    have hv3 := b64dc_b64ec ((a * 65536 + b * 256 + c) / 64 % 64) (Nat.mod_lt _ (by norm_num))
    have hv4 := b64dc_b64ec ((a * 65536 + b * 256 + c) % 64) (Nat.mod_lt _ (by norm_num))
    have hs1 := b64ec_not_skip ((a * 65536 + b * 256 + c) / 262144 % 64) (Nat.mod_lt _ (by norm_num))
    have hs2 := b64ec_not_skip ((a * 65536 + b * 256 + c) / 4096 % 64) (Nat.mod_lt _ (by norm_num))
    have hs3 := b64ec_not_skip ((a * 65536 + b * 256 + c) / 64 % 64) (Nat.mod_lt _ (by norm_num))
    have hs4 := b64ec_not_skip ((a * 65536 + b * 256 + c) % 64) (Nat.mod_lt _ (by norm_num))
    have ha : a < 256 := hl a (by simp)
    have hb : b < 256 := hl b (by simp)
    have hc : c < 256 := hl c (by simp)
    have hrest : ∀ x ∈ rest, x < 256 := fun x hx => hl x (by simp [hx])
    simp only [base64_encode, b64decAux, hs1, hs2, hs3, hs4, hv1, hv2, hv3, hv4,
      if_false, if_true]
    norm_num
    rw [ih hrest]
    simp only [Option.some.injEq, List.cons_append, List.cons.injEq]
    refine ⟨by omega, by omega, by omega, ?_⟩
    have hk : (3 - (rest.length + 1 + 1 + 1) % 3) % 3 = (3 - rest.length % 3) % 3 := by
      omega
    simp only [List.length_cons, hk]

theorem dropWhile_eq_self_of_head (p : Nat → Bool) (l : List Nat)
    (h : p (l.headD 0) = false ∨ l = []) : l.dropWhile p = l := by
  cases l with
  | nil => rfl
  | cons a t =>
    rcases h with h | h
    · simp only [List.headD_cons] at h
      simp [List.dropWhile_cons, h]
    · exact absurd h (by simp)

theorem takeWhile_all (p : Nat → Bool) :
    ∀ l : List Nat, (∀ x ∈ l, p x = true) → l.takeWhile p = l := by
  intro l
  induction l with
  | nil => intro _; rfl
  | cons a t ih =>
    intro h
    rw [List.takeWhile_cons, if_pos (h a (by simp)), ih (fun x hx => h x (by simp [hx]))]

theorem dropWhile_all (p : Nat → Bool) :
    ∀ l : List Nat, (∀ x ∈ l, p x = true) → l.dropWhile p = [] := by
  intro l
  induction l with
  | nil => intro _; rfl
  | cons a t ih =>
    intro h
    rw [List.dropWhile_cons, if_pos (h a (by simp))]
    exact ih (fun x hx => h x (by simp [hx]))

theorem takeWhile_append_stop (p : Nat → Bool) :
    ∀ a s b, (∀ x ∈ a, p x = true) → p s = false →
      ((a ++ s :: b).takeWhile p = a ∧ (a ++ s :: b).dropWhile p = s :: b) := by
  intro a
  induction a with
  | nil => intro s b _ hs; simp [List.takeWhile_cons, List.dropWhile_cons, hs]
  | cons c t ih =>
    intro s b h hs
    have hc : p c = true := h c (by simp)
    have ht := ih s b (fun x hx => h x (by simp [hx])) hs
    simp [List.takeWhile_cons, List.dropWhile_cons, hc, ht.1, ht.2]

theorem trimTrail_eq_self (v : Cell) (h : isWsB (v.getLastD 0) = false) :
    trimTrail v = v := by
  unfold trimTrail
  cases hv : v.reverse with
  | nil =>
    have : v = [] := by simpa using congrArg List.reverse hv
    simp [this]
  | cons a t =>
    have hga : v.getLast? = some a := by
      rw [← List.head?_reverse, hv]; rfl
    have hda : v.getLastD 0 = a := by
      rw [List.getLastD_eq_getLast?, hga]; rfl
    have hpa : isWsB a = false := hda ▸ h
    rw [List.dropWhile_cons, if_neg (by simp [hpa]), ← hv, List.reverse_reverse]

theorem stripCR_eq_self (l : List Nat) (h : 13 ∉ l) : stripCR l = l := by
  unfold stripCR
  rw [if_neg]
  intro hc
  exact h (List.mem_of_mem_getLast? (by simp [hc]))

theorem joinComma_forall (P : Nat → Prop) (h44 : P 44) :
    ∀ l : List Cell, (∀ c ∈ l, ∀ x ∈ c, P x) → ∀ x ∈ joinComma l, P x := by
  intro l
  induction l with
  | nil => intro _ x hx; simp [joinComma] at hx
  | cons c t ih =>
    intro h x hx
    cases t with
    | nil => exact h c (by simp) x hx
    | cons d u =>
      have : joinComma (c :: d :: u) = c ++ 44 :: joinComma (d :: u) := rfl
      rw [this] at hx
      rcases List.mem_append.mp hx with hx | hx
      · exact h c (by simp) x hx
      · rcases List.mem_cons.mp hx with hx | hx
        · exact hx ▸ h44
        · exact ih (fun e he y hy => h e (by simp [he]) y hy) x hx

theorem base64_encode_ne_nil : ∀ l : List Nat, l ≠ [] → base64_encode l ≠ [] := by
  intro l h
  match l with
  | [] => exact absurd rfl h
  | [a] => simp [base64_encode]
  | [a, b] => simp [base64_encode]
  | a :: b :: c :: rest => simp [base64_encode]

theorem bne44_true (x : Nat) (h : x ≠ 44) : (x != 44) = true := by simp [h]

theorem parseCellsAux_joinComma :
    ∀ (cells : List Cell) (count : Nat), cells ≠ [] → (∀ v ∈ cells, canonicalCell v) →
      count + cells.length ≤ 256 → parseCellsAux (joinComma cells) count = cells := by
  intro cells
  induction cells with
  | nil => intro count h _ _; exact absurd rfl h
  | cons v t ih =>
    intro count _ hcan hlen
    have hv := hcan v (by simp)
    obtain ⟨hvne, hvlen, hvbytes, hvhead, hvlast⟩ := hv
    have hne : joinComma (v :: t) ≠ [] := by
      cases t with
      | nil => exact hvne
      | cons d u =>
        show v ++ 44 :: joinComma (d :: u) ≠ []
        simp [hvne]
    have hcnt : ¬ 256 ≤ count := by
      simp only [List.length_cons] at hlen; omega
    have hdw1 : (joinComma (v :: t)).dropWhile isWsB = joinComma (v :: t) := by
      apply dropWhile_eq_self_of_head
      left
      cases t with
      | nil =>
        show isWsB ((v).headD 0) = false
        exact hvhead
      | cons d u =>
        show isWsB ((v ++ 44 :: joinComma (d :: u)).headD 0) = false
        cases v with
        | nil => exact absurd rfl hvne
        | cons a w => simpa using hvhead
    rw [parseCellsAux]
    rw [if_neg hne, if_neg hcnt]
    simp only [hdw1]
    cases t with
    | nil =>
      have htw0 : List.takeWhile (fun c => c != 44) (joinComma [v]) = v :=
        takeWhile_all _ v (fun x hx => bne44_true x (hvbytes x hx).2.2.1)
      have hdw0 :
          List.dropWhile (fun c => c != 44) (List.dropWhile isWsB (joinComma [v])) = [] := by
        rw [hdw1]
        exact dropWhile_all _ v (fun x hx => bne44_true x (hvbytes x hx).2.2.1)
      split
      · next heq => rw [hdw0] at heq; exact absurd heq (by simp)
      · next heq =>
        rw [htw0, trimTrail_eq_self v hvlast, if_pos ⟨List.length_pos.mpr hvne, hvlen⟩]
    | cons d u =>
      have hstop := takeWhile_append_stop (fun c => c != 44) v 44 (joinComma (d :: u))
        (fun x hx => bne44_true x (hvbytes x hx).2.2.1) (by simp)
      have htw0 : List.takeWhile (fun c => c != 44) (joinComma (v :: d :: u)) = v := hstop.1
      have hdw0 :
          List.dropWhile (fun c => c != 44) (List.dropWhile isWsB (joinComma (v :: d :: u))) =
            44 :: joinComma (d :: u) := by
        rw [hdw1]; exact hstop.2
      split
      · next head rest2 heq =>
        rw [hdw0] at heq
        obtain ⟨h44, hrest2⟩ := List.cons.injEq .. ▸ heq
        rw [htw0, trimTrail_eq_self v hvlast, if_pos ⟨List.length_pos.mpr hvne, hvlen⟩,
          ← hrest2]
        have hrec := ih (count + 1) (by simp) (fun w hw => hcan w (by simp [hw]))
          (by simp only [List.length_cons] at hlen ⊢; omega)
        simp only [List.length_cons, List.length_nil]
        rw [hrec]
        rfl
      · next heq => rw [hdw0] at heq; exact absurd heq (by simp)


theorem joinComma_no10 (l : List Cell) (hl : canonicalLine l) : 10 ∉ joinComma l :=
  fun hm => joinComma_forall (fun x => x ≠ 10) (by norm_num) l
    (fun c hc x hx => ((hl.2.2 c hc).2.2.1 x hx).2.2.2.1) 10 hm rfl

theorem joinComma_no13 (l : List Cell) (hl : canonicalLine l) : 13 ∉ joinComma l :=
  fun hm => joinComma_forall (fun x => x ≠ 13) (by norm_num) l
    (fun c hc x hx => ((hl.2.2 c hc).2.2.1 x hx).2.2.2.2) 13 hm rfl

theorem parse_csv_line_joinComma (cells : List Cell) (h : canonicalLine cells) :
    parse_csv_line (joinComma cells) = cells := by
  obtain ⟨hne, hlen, hcan⟩ := h
  have hjne : joinComma cells ≠ [] :=
    joinComma_ne_nil cells hne (fun e he => (hcan e he).1)
  unfold parse_csv_line
  rw [if_neg hjne]
  by_cases h0 : joinComma cells = cellZero
  · rw [if_pos h0]
    cases cells with
    | nil => exact absurd rfl hne
    | cons v t =>
      cases t with
      | nil =>
        have hv : v = cellZero := h0
        rw [hv]
      | cons d u =>
        exfalso
        have he : joinComma (v :: d :: u) = v ++ 44 :: joinComma (d :: u) := rfl
        rw [he] at h0
        simp only [cellZero] at h0
        have hvne := (hcan v (by simp)).1
        cases v with
        | nil => exact hvne rfl
        | cons a w =>
          rw [List.cons_append] at h0
          have h2 := (List.cons.injEq .. ▸ h0).2
          simp at h2
  · rw [if_neg h0,
      parseCellsAux_joinComma cells 0 hne hcan (by simpa using hlen)]
    cases cells with
    | nil => exact absurd rfl hne
    | cons v t => rfl

theorem splitByte_serializeCsv (c : WhitelistCsv) (h : canonicalCsv c) :
    splitByte 10 (serializeCsv c) =
      [joinComma c.l0, joinComma c.l1, joinComma c.l2, joinComma c.l3, joinComma c.l4,
        []] := by
  obtain ⟨h0, h1, h2, h3, h4⟩ := h
  have e : serializeCsv c =
      joinComma c.l0 ++ 10 :: (joinComma c.l1 ++ 10 :: (joinComma c.l2 ++ 10 ::
        (joinComma c.l3 ++ 10 :: (joinComma c.l4 ++ 10 :: [])))) := by
    unfold serializeCsv serializeLine
    simp [List.append_assoc]
  rw [e, splitByte_append 10 _ _ (joinComma_no10 _ h0),
    splitByte_append 10 _ _ (joinComma_no10 _ h1),
    splitByte_append 10 _ _ (joinComma_no10 _ h2),
    splitByte_append 10 _ _ (joinComma_no10 _ h3),
    splitByte_append 10 _ _ (joinComma_no10 _ h4)]
  rfl

theorem serializeLine_lt256 (l : List Cell) (hl : canonicalLine l) :
    ∀ x ∈ serializeLine l, x < 256 := by
  intro x hx
  unfold serializeLine at hx
  rcases List.mem_append.mp hx with hx | hx
  · exact joinComma_forall (fun y => y < 256) (by norm_num) l
      (fun cc hc y hy => ((hl.2.2 cc hc).2.2.1 y hy).2.1) x hx
  · simp at hx; omega

theorem serializeCsv_lt256 (c : WhitelistCsv) (h : canonicalCsv c) :
    ∀ x ∈ serializeCsv c, x < 256 := by
  obtain ⟨h0, h1, h2, h3, h4⟩ := h
  intro x hx
  unfold serializeCsv at hx
  rcases List.mem_append.mp hx with hx | hx
  rcases List.mem_append.mp hx with hx | hx
  rcases List.mem_append.mp hx with hx | hx
  rcases List.mem_append.mp hx with hx | hx
  · exact serializeLine_lt256 _ h0 x hx
  · exact serializeLine_lt256 _ h1 x hx
  · exact serializeLine_lt256 _ h2 x hx
  · exact serializeLine_lt256 _ h3 x hx
  · exact serializeLine_lt256 _ h4 x hx

theorem serializeCsv_ne_nil (c : WhitelistCsv) : serializeCsv c ≠ [] := by
  unfold serializeCsv serializeLine
  simp

theorem serializeLine_ne0 (l : List Cell) (hl : canonicalLine l) :
    ∀ x ∈ serializeLine l, (x != 0) = true := by
  intro x hx
  unfold serializeLine at hx
  rcases List.mem_append.mp hx with hx | hx
  · have := joinComma_forall (fun y => 0 < y) (by norm_num) l
      (fun cc hc y hy => ((hl.2.2 cc hc).2.2.1 y hy).1) x hx
    simp only [bne_iff_ne, ne_eq]
    omega
  · simp at hx; simp [hx]

theorem serializeCsv_ne0 (c : WhitelistCsv) (h : canonicalCsv c) :
    ∀ x ∈ serializeCsv c, (x != 0) = true := by
  obtain ⟨h0, h1, h2, h3, h4⟩ := h
  intro x hx
  unfold serializeCsv at hx
  rcases List.mem_append.mp hx with hx | hx
  rcases List.mem_append.mp hx with hx | hx
  rcases List.mem_append.mp hx with hx | hx
  rcases List.mem_append.mp hx with hx | hx
  · exact serializeLine_ne0 _ h0 x hx
  · exact serializeLine_ne0 _ h1 x hx
  · exact serializeLine_ne0 _ h2 x hx
  · exact serializeLine_ne0 _ h3 x hx
  · exact serializeLine_ne0 _ h4 x hx

theorem takeWhile_append_replicate (p : Nat → Bool) (s : List Nat) (k : Nat)
    (hs : ∀ x ∈ s, p x = true) (h0 : p 0 = false) :
    (s ++ List.replicate k 0).takeWhile p = s := by
  cases k with
  | zero => simpa using takeWhile_all p s hs
  | succ k =>
    rw [List.replicate_succ]
    exact (takeWhile_append_stop p s 0 (List.replicate k 0) hs h0).1

/-- **C6** (amended): the whitelist encoding round-trips on canonical
tables — every column nonempty with at most 256 cells, every cell
nonempty, shorter than 128 bytes, free of NUL/comma/LF/CR, and without
leading or trailing blank: `parse_whitelist (serialize_whitelist c) =
some c`.  The claim's unrestricted form, including the empty table, is
refuted by `whitelist_roundtrip_empty_cex`. -/
theorem whitelist_roundtrip_canonical (c : WhitelistCsv) (h : canonicalCsv c) :
    parse_whitelist (serialize_whitelist c) = some c := by
  have hdec : base64_decode (base64_encode (serializeCsv c)) =
      some (serializeCsv c ++
        List.replicate ((3 - (serializeCsv c).length % 3) % 3) 0) :=
    b64_roundtrip (serializeCsv c) (serializeCsv_lt256 c h) 0
  have htw : (serializeCsv c ++
      List.replicate ((3 - (serializeCsv c).length % 3) % 3) 0).takeWhile
        (fun x => x != 0) = serializeCsv c :=
    takeWhile_append_replicate _ _ _ (serializeCsv_ne0 c h) (by norm_num)
  obtain ⟨h0, h1, h2, h3, h4⟩ := h
  unfold serialize_whitelist parse_whitelist
  rw [if_neg (base64_encode_ne_nil _ (serializeCsv_ne_nil c)), hdec]
  dsimp only
  rw [htw, splitByte_serializeCsv c ⟨h0, h1, h2, h3, h4⟩]
  simp only [List.take, List.map_cons, List.map_nil,
    stripCR_eq_self _ (joinComma_no13 _ h0), stripCR_eq_self _ (joinComma_no13 _ h1),
    stripCR_eq_self _ (joinComma_no13 _ h2), stripCR_eq_self _ (joinComma_no13 _ h3),
    stripCR_eq_self _ (joinComma_no13 _ h4),
    parse_csv_line_joinComma _ ⟨h0.1, h0.2.1, h0.2.2⟩,
    parse_csv_line_joinComma _ ⟨h1.1, h1.2.1, h1.2.2⟩,
    parse_csv_line_joinComma _ ⟨h2.1, h2.2.1, h2.2.2⟩,
    parse_csv_line_joinComma _ ⟨h3.1, h3.2.1, h3.2.2⟩,
    parse_csv_line_joinComma _ ⟨h4.1, h4.2.1, h4.2.2⟩,
    List.getD]
  rfl

/-- **C6** counterexample: the round-trip fails on the empty table.
`serialize_whitelist` emits five empty lines; `parse_whitelist` decodes
each empty line as the `"0"` sentinel row (lines 2013-2016 of the C
source), so `decode(encode(empty))` is the all-`"0"` table, not the
empty table the claim requires. -/
theorem whitelist_roundtrip_empty_cex :
    parse_whitelist (serialize_whitelist emptyCsv) ≠ some emptyCsv := by decide

/-- Closed instance of `whitelist_roundtrip_canonical` at the concrete
table `canonT0` (`10.0.0.1 / root / mysql / 0 / 0`). -/
theorem whitelist_roundtrip_canonical_witness :
    canonicalCsv canonT0 ∧
      parse_whitelist (serialize_whitelist canonT0) = some canonT0 :=
  have h0 : canonicalLine [[49, 48, 46, 48, 46, 48, 46, 49]] := by
    unfold canonicalLine canonicalCell; decide
  have h1 : canonicalLine [[114, 111, 111, 116]] := by
    unfold canonicalLine canonicalCell; decide
  have h2 : canonicalLine [[109, 121, 115, 113, 108]] := by
    unfold canonicalLine canonicalCell; decide
  have h3 : canonicalLine [[48]] := by
    unfold canonicalLine canonicalCell; decide
  have h : canonicalCsv canonT0 := ⟨h0, h1, h2, h3, h3⟩
  ⟨h, whitelist_roundtrip_canonical canonT0 h⟩

example : atoi "33061" = 33061 := by decide
example : atoi "  +42x" = 42 := by decide
example : atoi "abc" = 0 := by decide
